import Mathlib

/-
Verification of the BMAD/Linear synchronization engine found in `.sync/lib`
(content_discovery.py, state_mapper.py, epic_numbering.py, linctl_wrapper.py,
three_way_merge.py, state_manager.py, hierarchy.py, sync_engine.py).

Python strings are modelled as `List Char`.  Timestamps that the source parses
with `datetime.fromisoformat` and compares as instants are modelled as `Int`
instants.  External effects (subprocess calls of the tracker CLI, the
filesystem, wall-clock `datetime.now()`) are passed in explicitly as oracles or
arguments; each definition carries a comment naming the Python function it
embeds.
-/

/-- Python strings, modelled as lists of characters. -/
abbrev LC := List Char

/-- Characters removed by Python `str.strip()` (the `str.isspace` set). -/
def pyIsSpace (c : Char) : Bool :=
  decide (c.toNat ∈
    [0x09, 0x0A, 0x0B, 0x0C, 0x0D, 0x1C, 0x1D, 0x1E, 0x1F, 0x20, 0x85, 0xA0,
     0x1680, 0x2000, 0x2001, 0x2002, 0x2003, 0x2004, 0x2005, 0x2006, 0x2007,
     0x2008, 0x2009, 0x200A, 0x2028, 0x2029, 0x202F, 0x205F, 0x3000])

/-- Line boundaries recognised by Python `str.splitlines` (besides the pair
`\r\n`, which `splitlines` consumes as a single boundary). -/
def pyLineBreak (c : Char) : Bool :=
  decide (c.toNat ∈ [0x0A, 0x0B, 0x0C, 0x0D, 0x1C, 0x1D, 0x1E, 0x85, 0x2028, 0x2029])

theorem pyIsSpace_of_lineBreak {c : Char} (h : pyLineBreak c = true) :
    pyIsSpace c = true := by
  simp only [pyLineBreak, decide_eq_true_eq, List.mem_cons,
    List.not_mem_nil, or_false] at h
  simp only [pyIsSpace, decide_eq_true_eq, List.mem_cons]
  rcases h with h | h | h | h | h | h | h | h | h | h <;> simp [h]

/-- Python `str.strip()`: drop `isspace` characters from both ends. -/
def pyStrip (s : LC) : LC :=
  (s.dropWhile pyIsSpace).rdropWhile pyIsSpace

/-- First stage of `content.replace("\r\n", "\n")`. -/
def replaceCRLF : LC → LC
  | [] => []
  | '\r' :: '\n' :: rest => '\n' :: replaceCRLF rest
  | c :: rest => c :: replaceCRLF rest

/-- Second stage `.replace("\r", "\n")`: a single-character substitution. -/
def replaceCR (s : LC) : LC :=
  s.map fun c => if c = '\r' then '\n' else c

/-- Worker for Python `str.splitlines`: accumulates the current line in
reverse; a final unterminated line is emitted only when non-empty. -/
def pySplitAux (s : LC) (acc : LC) : List LC :=
  match s with
  | [] => if acc.isEmpty then [] else [acc.reverse]
  | '\r' :: '\n' :: rest2 => acc.reverse :: pySplitAux rest2 []
  | c :: rest =>
    if c = '\r' then
      acc.reverse :: pySplitAux rest []
    else if pyLineBreak c then
      acc.reverse :: pySplitAux rest []
    else
      pySplitAux rest (c :: acc)

/-- Python `str.splitlines()`. -/
def pySplitlines (s : LC) : List LC := pySplitAux s []

/-- Python `"\n".join(lines)`. -/
def pyJoinNL : List LC → LC
  | [] => []
  | [l] => l
  | l :: l2 :: rest => l ++ '\n' :: pyJoinNL (l2 :: rest)

/-- `ContentDiscovery.normalize_content` (content_discovery.py:39-43):
`content.replace("\r\n","\n").replace("\r","\n")`, then
`"\n".join(line.strip() for line in normalized.splitlines()).strip()`. -/
def normalize_content (content : LC) : LC :=
  pyStrip (pyJoinNL (((pySplitlines (replaceCR (replaceCRLF content)))).map pyStrip))

/-- `ContentDiscovery.compute_hash` (content_discovery.py:45-47):
`sha256(normalize_content(content).encode()).hexdigest()`.  The SHA-256
primitive comes from Python's `hashlib` (outside this repository) and is
therefore a parameter; the source applies it to the normalised text only. -/
def compute_hash (sha256hex : LC → LC) (content : LC) : LC :=
  sha256hex (normalize_content content)

/- ------------------------------------------------------------------ -/
/- Support lemmas for the stability of `normalize_content` (claim C9). -/
/- ------------------------------------------------------------------ -/

theorem isEmpty_rev {α : Type} (l : List α) : l.reverse.isEmpty = l.isEmpty := by
  cases l with
  | nil => rfl
  | cons a t =>
    have h : t.reverse ++ [a] ≠ [] := by simp
    cases hh : t.reverse ++ [a] with
    | nil => exact absurd hh h
    | cons x y => simp only [List.reverse_cons, hh, List.isEmpty]

theorem dropWhile_fixed_head {α : Type} {p : α → Bool} {a : α} {t : List α}
    (h : List.dropWhile p (a :: t) = a :: t) : p a = false := by
  by_cases hp : p a
  · exfalso
    rw [List.dropWhile_cons, if_pos hp] at h
    have hlen := ((List.dropWhile_suffix (l := t) p).sublist).length_le
    rw [h] at hlen
    simp at hlen
  · exact Bool.of_not_eq_true hp

theorem dropWhile_fixed_of_prefix {α : Type} {p : α → Bool} {m r : List α}
    (hm : List.dropWhile p m = m) (hr : r <+: m) : List.dropWhile p r = r := by
  cases r with
  | nil => rfl
  | cons a t =>
    obtain ⟨s, hs⟩ := hr
    have ha : p a = false := by
      apply dropWhile_fixed_head (t := t ++ s)
      have hs2 : a :: (t ++ s) = m := by simpa using hs
      rw [hs2]
      exact hm
    rw [List.dropWhile_cons, if_neg (by simp [ha])]

/-- Trimming from the left after trimming both ends is a no-op. -/
theorem dropWhile_trim_fixed {α : Type} (p : α → Bool) (l : List α) :
    List.dropWhile p (List.rdropWhile p (List.dropWhile p l)) =
      List.rdropWhile p (List.dropWhile p l) :=
  dropWhile_fixed_of_prefix (List.dropWhile_idempotent p l)
    (List.rdropWhile_prefix p (List.dropWhile p l))

theorem pyStrip_dropWhile_fixed (l : LC) :
    List.dropWhile pyIsSpace (pyStrip l) = pyStrip l :=
  dropWhile_trim_fixed pyIsSpace l

theorem pyStrip_rdropWhile_fixed (l : LC) :
    List.rdropWhile pyIsSpace (pyStrip l) = pyStrip l :=
  List.rdropWhile_idempotent pyIsSpace (List.dropWhile pyIsSpace l)

theorem pyStrip_idem (l : LC) : pyStrip (pyStrip l) = pyStrip l := by
  show List.rdropWhile pyIsSpace (List.dropWhile pyIsSpace (pyStrip l)) = pyStrip l
  rw [pyStrip_dropWhile_fixed l]
  exact pyStrip_rdropWhile_fixed l

theorem pyStrip_subset {c : Char} {l : LC} (h : c ∈ pyStrip l) : c ∈ l := by
  unfold pyStrip at h
  have h1 := (List.rdropWhile_prefix pyIsSpace (List.dropWhile pyIsSpace l)).sublist.subset h
  exact (List.dropWhile_suffix pyIsSpace).sublist.subset h1

/-- A list of characters containing no `splitlines` boundary. -/
def lineNoBreak (l : LC) : Prop := ∀ c ∈ l, pyLineBreak c = false

theorem cr_lineBreak : pyLineBreak '\r' = true := by decide

theorem nl_lineBreak : pyLineBreak '\n' = true := by decide

theorem nl_isSpace : pyIsSpace '\n' = true := by decide

/-- Unfolding `pySplitAux` on a non-boundary head character. -/
theorem pySplitAux_cons_nb (c : Char) (rest acc : LC) (h1 : pyLineBreak c = false) :
    pySplitAux (c :: rest) acc = pySplitAux rest (c :: acc) := by
  have hcr : c ≠ '\r' := fun hc => by rw [hc, cr_lineBreak] at h1; exact absurd h1 (by decide)
  rw [pySplitAux.eq_def]
  split
  · simp_all
  · rename_i heq; exact absurd (by injection heq) hcr
  · rename_i heq
    injection heq with h2 h3
    subst h2; subst h3
    rw [if_neg hcr, if_neg (by simp [h1])]

/-- Unfolding `pySplitAux` on a boundary character other than `\r`. -/
theorem pySplitAux_cons_brk (c : Char) (rest acc : LC) (hc : pyLineBreak c = true)
    (hcr : c ≠ '\r') :
    pySplitAux (c :: rest) acc = acc.reverse :: pySplitAux rest [] := by
  rw [pySplitAux.eq_def]
  split
  · simp_all
  · rename_i heq; exact absurd (by injection heq) hcr
  · rename_i heq
    injection heq with h2 h3
    subst h2; subst h3
    rw [if_neg hcr, if_pos hc]

/-- `pySplitAux` first consumes a boundary-free block into the accumulator. -/
theorem pySplitAux_append (l : LC) (hl : lineNoBreak l) :
    ∀ (s acc : LC), pySplitAux (l ++ s) acc = pySplitAux s (l.reverse ++ acc) := by
  induction l with
  | nil => intro s acc; simp
  | cons a t ih =>
    intro s acc
    have ha : pyLineBreak a = false := hl a (by simp)
    have ht : lineNoBreak t := fun c hc => hl c (by simp [hc])
    rw [List.cons_append, pySplitAux_cons_nb a (t ++ s) acc ha, ih ht s (a :: acc)]
    simp

/-- Unfolding `pySplitAux` on `\r` not followed by `\n`. -/
theorem pySplitAux_cons_cr (rest acc : LC) (hne : ∀ rest2 : LC, rest ≠ '\n' :: rest2) :
    pySplitAux ('\r' :: rest) acc = acc.reverse :: pySplitAux rest [] := by
  rw [pySplitAux.eq_def]
  split
  · simp_all
  · rename_i rest2 heq
    injection heq with h1 h2
    exact absurd h2 (hne rest2)
  · rename_i heq
    injection heq with h1 h2
    subst h2
    rw [if_pos h1.symm]

/-- Every emitted line of `pySplitAux` is free of boundary characters. -/
theorem pySplitAux_lines (s acc : LC) :
    (∀ c ∈ acc, pyLineBreak c = false) →
      ∀ l ∈ pySplitAux s acc, lineNoBreak l := by
  induction s, acc using pySplitAux.induct with
  | case1 acc hacc =>
    intro _ l hl
    simp [pySplitAux, hacc] at hl
  | case2 acc hacc =>
    intro h l hl
    simp only [pySplitAux, if_neg hacc, List.mem_singleton] at hl
    subst hl
    exact fun c hc => h c (List.mem_reverse.mp hc)
  | case3 acc rest2 ih =>
    intro h l hl
    rw [show pySplitAux ('\r' :: '\n' :: rest2) acc = acc.reverse :: pySplitAux rest2 []
      from rfl] at hl
    rcases List.mem_cons.mp hl with hl | hl
    · subst hl; exact fun c hc => h c (List.mem_reverse.mp hc)
    · exact ih (by simp) l hl
  | case4 acc rest hne ih =>
    intro h l hl
    rw [pySplitAux_cons_cr rest acc (fun r2 hr2 => hne r2 rfl hr2)] at hl
    rcases List.mem_cons.mp hl with hl | hl
    · subst hl; exact fun c hc => h c (List.mem_reverse.mp hc)
    · exact ih (by simp) l hl
  | case5 acc c rest hne hcr hbrk ih =>
    intro h l hl
    rw [pySplitAux_cons_brk c rest acc hbrk hcr] at hl
    rcases List.mem_cons.mp hl with hl | hl
    · subst hl; exact fun d hd => h d (List.mem_reverse.mp hd)
    · exact ih (by simp) l hl
  | case6 acc c rest hne hcr hbrk ih =>
    intro h l hl
    rw [pySplitAux_cons_nb c rest acc (Bool.of_not_eq_true hbrk)] at hl
    refine ih (fun d hd => ?_) l hl
    rcases List.mem_cons.mp hd with hd | hd
    · subst hd; exact Bool.of_not_eq_true hbrk
    · exact h d hd

theorem pyJoinNL_cons (l : LC) (ls : List LC) (h : ls ≠ []) :
    pyJoinNL (l :: ls) = l ++ '\n' :: pyJoinNL ls := by
  cases ls with
  | nil => exact absurd rfl h
  | cons a t => rfl

/-- Stripping leading whitespace from a `\n`-join drops the leading empty
lines, provided every line is already left-stripped. -/
theorem dropWhile_pyJoinNL (ls : List LC)
    (h : ∀ l ∈ ls, List.dropWhile pyIsSpace l = l) :
    List.dropWhile pyIsSpace (pyJoinNL ls) =
      pyJoinNL (ls.dropWhile List.isEmpty) := by
  induction ls with
  | nil => rfl
  | cons l rest ih =>
    cases rest with
    | nil =>
      have hfix := h l (by simp)
      cases hl : l with
      | nil => rfl
      | cons a t =>
        rw [hl] at hfix
        show List.dropWhile pyIsSpace (a :: t) =
          pyJoinNL (List.dropWhile List.isEmpty [a :: t])
        rw [hfix]
        rfl
    | cons l2 rest2 =>
      have ih2 := ih (fun x hx => h x (by simp [hx]))
      cases hl : l with
      | nil =>
        show List.dropWhile pyIsSpace ('\n' :: pyJoinNL (l2 :: rest2)) =
          pyJoinNL (List.dropWhile List.isEmpty ([] :: l2 :: rest2))
        rw [List.dropWhile_cons, if_pos (by rw [nl_isSpace])]
        exact ih2
      | cons a t =>
        have hfix := h l (by simp)
        rw [hl] at hfix
        have ha : pyIsSpace a = false := dropWhile_fixed_head hfix
        show List.dropWhile pyIsSpace (a :: (t ++ '\n' :: pyJoinNL (l2 :: rest2))) =
          pyJoinNL (List.dropWhile List.isEmpty ((a :: t) :: l2 :: rest2))
        rw [List.dropWhile_cons, if_neg (by simp [ha])]
        rfl

theorem pyJoinNL_concat (xs : List LC) (y : LC) (h : xs ≠ []) :
    pyJoinNL (xs ++ [y]) = pyJoinNL xs ++ '\n' :: y := by
  induction xs with
  | nil => exact absurd rfl h
  | cons l rest ih =>
    cases rest with
    | nil => rfl
    | cons l2 r2 =>
      rw [List.cons_append,
        pyJoinNL_cons l ((l2 :: r2) ++ [y]) (by simp),
        pyJoinNL_cons l (l2 :: r2) (by simp),
        ih (by simp), List.append_assoc]
      rfl

theorem pyJoinNL_rev (ls : List LC) :
    (pyJoinNL ls).reverse = pyJoinNL ((ls.map List.reverse).reverse) := by
  induction ls with
  | nil => rfl
  | cons l rest ih =>
    cases rest with
    | nil => rfl
    | cons l2 r2 =>
      have hmr : ((l :: l2 :: r2).map List.reverse).reverse
          = ((l2 :: r2).map List.reverse).reverse ++ [l.reverse] := by
        simp
      rw [hmr, pyJoinNL_concat _ _ (by simp), ← ih,
        pyJoinNL_cons l (l2 :: r2) (by simp)]
      simp

/-- Right-hand analogue of `dropWhile_pyJoinNL`. -/
theorem rdropWhile_pyJoinNL (ls : List LC)
    (h : ∀ l ∈ ls, List.rdropWhile pyIsSpace l = l) :
    List.rdropWhile pyIsSpace (pyJoinNL ls) =
      pyJoinNL (ls.rdropWhile List.isEmpty) := by
  have helems : ∀ l ∈ (ls.map List.reverse).reverse,
      List.dropWhile pyIsSpace l = l := by
    intro l hl
    rw [List.mem_reverse] at hl
    obtain ⟨x, hx, rfl⟩ := List.mem_map.mp hl
    have hfix := h x hx
    unfold List.rdropWhile at hfix
    have := congrArg List.reverse hfix
    simpa using this
  show (List.dropWhile pyIsSpace (pyJoinNL ls).reverse).reverse = _
  rw [pyJoinNL_rev ls, dropWhile_pyJoinNL _ helems]
  have hidx : List.dropWhile List.isEmpty ((ls.map List.reverse).reverse)
      = ((ls.rdropWhile List.isEmpty).map List.reverse).reverse := by
    have hcomp : (fun x : LC => List.isEmpty (List.reverse x)) = List.isEmpty := by
      funext x; exact isEmpty_rev x
    calc List.dropWhile List.isEmpty ((ls.map List.reverse).reverse)
        = List.dropWhile List.isEmpty (ls.reverse.map List.reverse) := by
          rw [List.map_reverse]
      _ = (ls.reverse.dropWhile (List.isEmpty ∘ List.reverse)).map List.reverse := by
          rw [List.dropWhile_map]
      _ = (ls.reverse.dropWhile List.isEmpty).map List.reverse := by
          rw [show (List.isEmpty ∘ List.reverse : LC → Bool)
              = List.isEmpty from hcomp]
      _ = ((ls.rdropWhile List.isEmpty).map List.reverse).reverse := by
          unfold List.rdropWhile
          simp [List.map_reverse]
  rw [hidx, ← pyJoinNL_rev (ls.rdropWhile List.isEmpty)]
  simp

theorem pySplitlines_pyJoinNL (ls : List LC) (hnb : ∀ l ∈ ls, lineNoBreak l)
    (hne : ls ≠ []) (hlast : ∀ l, ls.getLast? = some l → l ≠ []) :
    pySplitlines (pyJoinNL ls) = ls := by
  induction ls with
  | nil => exact absurd rfl hne
  | cons l rest ih =>
    cases rest with
    | nil =>
      have hl : l ≠ [] := hlast l rfl
      show pySplitAux (pyJoinNL [l]) [] = [l]
      have : pyJoinNL [l] = l ++ [] := by simp [pyJoinNL]
      rw [this, pySplitAux_append l (hnb l (by simp)) [] []]
      show (if (l.reverse ++ []).isEmpty then [] else [(l.reverse ++ []).reverse]) = [l]
      rw [List.append_nil, isEmpty_rev, List.reverse_reverse,
        if_neg (by simp [List.isEmpty_iff, hl])]
    | cons l2 r2 =>
      have hjoin : pyJoinNL (l :: l2 :: r2) = l ++ '\n' :: pyJoinNL (l2 :: r2) := rfl
      show pySplitAux (pyJoinNL (l :: l2 :: r2)) [] = l :: l2 :: r2
      rw [hjoin, pySplitAux_append l (hnb l (by simp)) _ [],
        pySplitAux_cons_brk '\n' _ _ nl_lineBreak (by decide)]
      have ihr := ih (fun x hx => hnb x (by simp [hx])) (by simp)
        (fun x hx => hlast x (by rw [List.getLast?_cons_cons]; exact hx))
      rw [show pySplitAux (pyJoinNL (l2 :: r2)) [] = pySplitlines (pyJoinNL (l2 :: r2))
        from rfl, ihr]
      simp

theorem mem_pyJoinNL {c : Char} {ls : List LC} (h : c ∈ pyJoinNL ls) :
    c = '\n' ∨ ∃ l ∈ ls, c ∈ l := by
  induction ls with
  | nil => simp [pyJoinNL] at h
  | cons l rest ih =>
    cases rest with
    | nil =>
      right
      exact ⟨l, by simp, h⟩
    | cons l2 r2 =>
      rw [pyJoinNL_cons l _ (by simp)] at h
      rcases List.mem_append.mp h with h | h
      · right; exact ⟨l, by simp, h⟩
      · rcases List.mem_cons.mp h with h | h
        · left; exact h
        · rcases ih h with h | ⟨x, hx, hcx⟩
          · left; exact h
          · right; exact ⟨x, by simp [List.mem_cons.mp hx], hcx⟩

theorem trim_subset {α : Type} {q : α → Bool} {x : α} {ls : List α}
    (h : x ∈ List.rdropWhile q (List.dropWhile q ls)) : x ∈ ls := by
  have h1 := (List.rdropWhile_prefix q (List.dropWhile q ls)).sublist.subset h
  exact (List.dropWhile_suffix q).sublist.subset h1

theorem replaceCRLF_cons {c : Char} (rest : LC) (hc : c ≠ '\r') :
    replaceCRLF (c :: rest) = c :: replaceCRLF rest := by
  rw [replaceCRLF.eq_def]
  split
  · simp_all
  · rename_i heq; exact absurd (by injection heq) hc
  · rename_i heq
    injection heq with h1 h2
    subst h1; subst h2
    rfl

theorem replaceCRLF_self (s : LC) (h : ∀ c ∈ s, c ≠ '\r') : replaceCRLF s = s := by
  induction s with
  | nil => rfl
  | cons c rest ih =>
    rw [replaceCRLF_cons rest (h c (by simp)), ih (fun d hd => h d (by simp [hd]))]

theorem replaceCR_self (s : LC) (h : ∀ c ∈ s, c ≠ '\r') : replaceCR s = s := by
  induction s with
  | nil => rfl
  | cons c rest ih =>
    show (if c = '\r' then '\n' else c) :: replaceCR rest = c :: rest
    rw [if_neg (h c (by simp)), ih (fun d hd => h d (by simp [hd]))]

theorem map_self_of_fixed (f : LC → LC) (ls : List LC) (h : ∀ l ∈ ls, f l = l) :
    ls.map f = ls := by
  induction ls with
  | nil => rfl
  | cons l rest ih =>
    rw [List.map_cons, h l (by simp), ih (fun x hx => h x (by simp [hx]))]

/-- Stripping a `\n`-join of fully stripped lines drops the empty lines at
both ends. -/
theorem pyStrip_pyJoinNL (ms : List LC) (hms : ∀ l ∈ ms, pyStrip l = l) :
    pyStrip (pyJoinNL ms) =
      pyJoinNL (List.rdropWhile List.isEmpty (List.dropWhile List.isEmpty ms)) := by
  have hleft : ∀ l ∈ ms, List.dropWhile pyIsSpace l = l := by
    intro l hl
    have hfix := pyStrip_dropWhile_fixed l
    rw [hms l hl] at hfix
    exact hfix
  have hright : ∀ l ∈ ms.dropWhile List.isEmpty, List.rdropWhile pyIsSpace l = l := by
    intro l hl
    have hmem := (List.dropWhile_suffix List.isEmpty).sublist.subset hl
    have hfix := pyStrip_rdropWhile_fixed l
    rw [hms l hmem] at hfix
    exact hfix
  show List.rdropWhile pyIsSpace (List.dropWhile pyIsSpace (pyJoinNL ms)) = _
  rw [dropWhile_pyJoinNL ms hleft, rdropWhile_pyJoinNL _ hright]

/-- `normalize_content` is idempotent. -/
theorem normalize_content_idem (s : LC) :
    normalize_content (normalize_content s) = normalize_content s := by
  have hfix0 : ∀ l ∈ (pySplitlines (replaceCR (replaceCRLF s))).map pyStrip,
      pyStrip l = l := by
    intro l hl
    obtain ⟨x, _, rfl⟩ := List.mem_map.mp hl
    exact pyStrip_idem x
  have hnb0 : ∀ l ∈ (pySplitlines (replaceCR (replaceCRLF s))).map pyStrip,
      lineNoBreak l := by
    intro l hl
    obtain ⟨x, hx, rfl⟩ := List.mem_map.mp hl
    intro c hc
    exact pySplitAux_lines (replaceCR (replaceCRLF s)) [] (by simp) x hx c
      (pyStrip_subset hc)
  have h1 : normalize_content s =
      pyJoinNL (List.rdropWhile List.isEmpty (List.dropWhile List.isEmpty
        ((pySplitlines (replaceCR (replaceCRLF s))).map pyStrip))) :=
    pyStrip_pyJoinNL _ hfix0
  rw [h1]
  generalize hms : List.rdropWhile List.isEmpty (List.dropWhile List.isEmpty
    ((pySplitlines (replaceCR (replaceCRLF s))).map pyStrip)) = ms at *
  have hmsfix : ∀ l ∈ ms, pyStrip l = l := by
    intro l hl; rw [← hms] at hl; exact hfix0 l (trim_subset hl)
  have hmsnb : ∀ l ∈ ms, lineNoBreak l := by
    intro l hl; rw [← hms] at hl; exact hnb0 l (trim_subset hl)
  by_cases hcase : ms = []
  · subst hcase; rfl
  · have hnoCR : ∀ c ∈ pyJoinNL ms, c ≠ '\r' := by
      intro c hc hcr
      rcases mem_pyJoinNL hc with h | ⟨l, hl, hcl⟩
      · rw [hcr] at h; exact absurd h (by decide)
      · have := hmsnb l hl c hcl
        rw [hcr, cr_lineBreak] at this
        exact absurd this (by decide)
    have hlast : ∀ l, ms.getLast? = some l → l ≠ [] := by
      intro l hl hnil
      have hlast2 : ms.getLast? = some (ms.getLast hcase) :=
        List.getLast?_eq_getLast ms hcase
      rw [hlast2] at hl
      injection hl with hl2
      have hnotE := List.rdropWhile_last_not (p := List.isEmpty)
        (l := List.dropWhile List.isEmpty
          ((pySplitlines (replaceCR (replaceCRLF s))).map pyStrip))
        (by rw [hms]; exact hcase)
      apply hnotE
      have : (List.rdropWhile List.isEmpty (List.dropWhile List.isEmpty
          ((pySplitlines (replaceCR (replaceCRLF s))).map pyStrip))).getLast
          (by rw [hms]; exact hcase) = ms.getLast hcase := by
        congr 1
      rw [this, hl2, hnil]
      rfl
    show pyStrip (pyJoinNL ((pySplitlines (replaceCR (replaceCRLF
      (pyJoinNL ms)))).map pyStrip)) = pyJoinNL ms
    rw [replaceCRLF_self _ hnoCR, replaceCR_self _ hnoCR,
      pySplitlines_pyJoinNL ms hmsnb hcase hlast,
      map_self_of_fixed pyStrip ms hmsfix,
      pyStrip_pyJoinNL ms hmsfix]
    have hd : List.dropWhile List.isEmpty ms = ms := by
      rw [← hms]; exact dropWhile_trim_fixed List.isEmpty _
    have hr : List.rdropWhile List.isEmpty ms = ms := by
      rw [← hms]; exact List.rdropWhile_idempotent List.isEmpty _
    rw [hd, hr]

/-- C9: for every content string, normalising twice equals normalising once,
and the content hash of `ContentDiscovery.compute_hash` is a function of the
normalised bytes only: contents with equal normalised forms hash equally. -/
theorem c9_hash_stability (sha256hex : LC → LC) (c1 c2 : LC)
    (h : normalize_content c1 = normalize_content c2) :
    normalize_content (normalize_content c1) = normalize_content c1 ∧
      compute_hash sha256hex c1 = compute_hash sha256hex c2 := by
  refine ⟨normalize_content_idem c1, ?_⟩
  unfold compute_hash
  rw [h]

theorem c9_hash_stability_witness :
    normalize_content (normalize_content (("a \r\nb").toList)) =
        normalize_content (("a \r\nb").toList) ∧
      compute_hash List.reverse (("a \r\nb").toList) =
        compute_hash List.reverse (("a\nb  ").toList) :=
  c9_hash_stability List.reverse (("a \r\nb").toList) (("a\nb  ").toList) (by decide)

/- ------------------------------------------------------------------ -/
/- State mapper (state_mapper.py): state conversion and conflicts.     -/
/- ------------------------------------------------------------------ -/

/-- One entry of `context_aware_mapping.todo_to_bmad_logic` in the mapping
configuration: a condition name and the BMAD state it yields. -/
structure TodoRule where
  condition : LC
  result : LC
deriving DecidableEq

/-- One direction pair of `story_states` or `epic_states` in the mapping
configuration. -/
structure StateTable where
  bmadToLinear : List (LC × LC)
  linearToBmad : List (LC × LC)
deriving DecidableEq

/-- The parts of the loaded `state_mapping.yaml` configuration that the
conversion functions read (`self.config` in `StateMapper`). -/
structure MapperConfig where
  storyStates : StateTable
  epicStates : StateTable
  strictMode : Bool
  todoLogic : List TodoRule
deriving DecidableEq

/-- Python `dict.get` on a string-keyed mapping. -/
def lookupLC (m : List (LC × LC)) (k : LC) : Option LC :=
  (m.find? (fun kv => kv.1 == k)).map Prod.snd

/-- `self.config.get(f"{content_type}_states", {})`: the mapping file defines
exactly the keys `story_states` and `epic_states`, so any other content type
yields the empty table. -/
def contentStates (cfg : MapperConfig) (contentType : LC) : StateTable :=
  if contentType = ("story").toList then cfg.storyStates
  else if contentType = ("epic").toList then cfg.epicStates
  else ⟨[], []⟩

/-- `StateMappingError` raised by the conversion functions in strict mode. -/
inductive StateMappingErr
  | unknownBmadState (s : LC)
  | unknownLinearState (s : LC)
deriving DecidableEq

/-- `StateMapper.bmad_to_linear` (state_mapper.py:184-220). -/
def bmad_to_linear (cfg : MapperConfig) (bmadState : LC) (contentType : LC) :
    Except StateMappingErr LC :=
  if bmadState = [] then .ok (("Backlog").toList)
  else
    match lookupLC (contentStates cfg contentType).bmadToLinear bmadState with
    | some linearState => .ok linearState
    | none =>
      if cfg.strictMode then .error (.unknownBmadState bmadState)
      else .ok (("Backlog").toList)

/-- The `for rule in todo_logic` loop of `StateMapper.linear_to_bmad`
(state_mapper.py:271-281); `ctx` is the truth value of
`context_hints and context_hints.get("has_context_file")` (`none` when no
hints dictionary was passed). -/
def todoLoop : List TodoRule → Option Bool → LC → LC
  | [], _, fallback => fallback
  | r :: rest, ctx, fallback =>
    if r.condition = ("story_context_file_exists").toList then
      if ctx = some true then r.result else todoLoop rest ctx fallback
    else if r.condition = ("default").toList then r.result
    else todoLoop rest ctx fallback

/-- `StateMapper.linear_to_bmad` (state_mapper.py:222-283). -/
def linear_to_bmad (cfg : MapperConfig) (linearState : LC) (contentType : LC)
    (contextHints : Option Bool) : Except StateMappingErr LC :=
  if linearState = [] then .ok (("backlog").toList)
  else
    match lookupLC (contentStates cfg contentType).linearToBmad linearState with
    | none =>
      if cfg.strictMode then .error (.unknownLinearState linearState)
      else .ok (("backlog").toList)
    | some bmadState =>
      if linearState = ("Todo").toList ∧ contentType = ("story").toList then
        .ok (todoLoop cfg.todoLogic contextHints bmadState)
      else .ok bmadState

/-- `StateConflict` (state_mapper.py:42-52); the two `*_updated` fields are
kept as the parsed instants the comparison uses. -/
structure StateConflict where
  conflictId : LC
  contentKey : LC
  conflictType : LC
  bmadState : LC
  bmadUpdated : Int
  linearState : LC
  linearUpdated : Int
  detectedAt : LC
deriving DecidableEq

/-- `StateMapper.detect_conflict` (state_mapper.py:459-511).  `now` stands for
the `datetime.now()` calls that mint `conflict_id` and `detected_at`;
timestamps are modelled as instants, and a falsy `last_sync` (None or empty)
as `none`. -/
def detect_conflict (cfg : MapperConfig) (now : LC) (contentKey : LC)
    (bmadState : LC) (bmadUpdated : Int) (linearState : LC) (linearUpdated : Int)
    (lastSync : Option Int) : Except StateMappingErr (Option StateConflict) :=
  match linear_to_bmad cfg linearState (("story").toList) none with
  | .error e => .error e
  | .ok linearAsBmad =>
    if bmadState = linearAsBmad then .ok none
    else
      match lastSync with
      | some syncTime =>
        if syncTime < bmadUpdated ∧ syncTime < linearUpdated then
          .ok (some
            { conflictId := ("c-").toList ++ contentKey ++ '-' :: now
              contentKey := contentKey
              conflictType := ("state_mismatch").toList
              bmadState := bmadState
              bmadUpdated := bmadUpdated
              linearState := linearState
              linearUpdated := linearUpdated
              detectedAt := now })
        else .ok none
      | none => .ok none

/-- The observable of interest: did `detect_conflict` return a conflict. -/
def reportsConflict (r : Except StateMappingErr (Option StateConflict)) : Bool :=
  match r with
  | .ok (some _) => true
  | _ => false

/-- C5: with a non-null `last_sync`, `StateMapper.detect_conflict` returns a
conflict if and only if the local state differs from the mapped remote state
and both update instants are strictly after `last_sync`. -/
theorem c5_conflict_detection_iff (cfg : MapperConfig)
    (now contentKey bmadState linearState : LC)
    (bmadUpdated linearUpdated syncTime : Int) (m : LC)
    (hm : linear_to_bmad cfg linearState (("story").toList) none = .ok m) :
    reportsConflict (detect_conflict cfg now contentKey bmadState bmadUpdated
        linearState linearUpdated (some syncTime)) = true ↔
      (bmadState ≠ m ∧ syncTime < bmadUpdated ∧ syncTime < linearUpdated) := by
  unfold detect_conflict
  rw [hm]
  by_cases h1 : bmadState = m
  · simp [h1, reportsConflict]
  · by_cases h2 : syncTime < bmadUpdated ∧ syncTime < linearUpdated
    · simp [h1, h2, reportsConflict]
    · simp [h1, h2, reportsConflict]

/-- A small mapping configuration used to witness the mapper theorems. -/
def mapperCfgW : MapperConfig where
  storyStates :=
    { bmadToLinear := [((("done").toList), (("Done").toList))]
      linearToBmad := [((("Done").toList), (("done").toList))] }
  epicStates := ⟨[], []⟩
  strictMode := false
  todoLogic := []

theorem c5_conflict_detection_iff_witness :
    reportsConflict (detect_conflict mapperCfgW [] (("1-2-s").toList)
      (("review").toList) 5 (("Done").toList) 6 (some 4)) = true :=
  (c5_conflict_detection_iff mapperCfgW [] (("1-2-s").toList) (("review").toList)
    (("Done").toList) 5 6 4 (("done").toList) rfl).mpr (by decide)

/-- C10: with no recorded `last_sync`, `StateMapper.detect_conflict` never
reports a conflict: it returns `None` whenever the state mapping succeeds
(and propagates the strict-mode mapping error otherwise). -/
theorem c10_no_conflict_before_first_sync (cfg : MapperConfig)
    (now contentKey bmadState linearState : LC) (bmadUpdated linearUpdated : Int) :
    detect_conflict cfg now contentKey bmadState bmadUpdated linearState
        linearUpdated none =
      Except.map (fun _ => (none : Option StateConflict))
        (linear_to_bmad cfg linearState (("story").toList) none) := by
  unfold detect_conflict
  cases h : linear_to_bmad cfg linearState (("story").toList) none with
  | error e => rfl
  | ok m =>
    by_cases h1 : bmadState = m
    · simp [h1, Except.map]
    · simp [h1, Except.map]

/- ------------------------------------------------------------------ -/
/- Epic numbering registry (epic_numbering.py).                        -/
/- ------------------------------------------------------------------ -/

/-- `EpicNumberRange` (epic_numbering.py:19-36). -/
structure EpicNumberRange where
  epicNumber : Int
  baseNumber : Int
  rangeStart : Int
  rangeEnd : Int
  reservedCount : Int
deriving DecidableEq

/-- One value of the `epics` map persisted in `number_registry.json`
(epic_numbering.py:170-176); keyed by `str(epic_number)`, so entries are
identified by their epic number. -/
structure EpicEntry where
  epicNumber : Int
  base : Int
  rangeStart : Int
  rangeEnd : Int
  reservedCount : Int
  reservedAt : LC
deriving DecidableEq

/-- The registry state the numbering system reads and writes (the `epics` map
and the derived `reserved_ranges` list). -/
structure NumberingRegistry where
  epics : List EpicEntry
  reservedRanges : List (Int × Int)
deriving DecidableEq

/-- Constructor parameters of `EpicNumberingSystem` (defaults 360 / 20). -/
structure NumberingSystemCfg where
  epicBase : Int
  blockSize : Int
deriving DecidableEq

/-- `EpicNumberingSystem.calculate_epic_range` (epic_numbering.py:112-133):
`base = epic_base + (epic_number - 1) * block_size`, range
`[base, base + block_size - 1]`. -/
def calculate_epic_range (cfg : NumberingSystemCfg) (epicNumber : Int) :
    EpicNumberRange :=
  let base := cfg.epicBase + (epicNumber - 1) * cfg.blockSize
  { epicNumber := epicNumber
    baseNumber := base
    rangeStart := base
    rangeEnd := base + cfg.blockSize - 1
    reservedCount := cfg.blockSize }

/-- `EpicNumberingSystem.check_conflicts` (epic_numbering.py:186-214): existing
reservations with a different epic number whose range `[start, end]`
intersects the candidate range under the test
`range_start <= existing_end and range_end >= existing_start`. -/
def check_conflicts (epics : List EpicEntry) (r : EpicNumberRange) :
    List EpicEntry :=
  epics.filter fun m =>
    decide (m.epicNumber ≠ r.epicNumber ∧
      r.rangeStart ≤ m.rangeEnd ∧ m.rangeStart ≤ r.rangeEnd)

/-- Python dict update `registry["epics"][str(epic_number)] = …`: replace the
entry with the same key in place, or append a new one. -/
def upsertEpic (l : List EpicEntry) (e : EpicEntry) : List EpicEntry :=
  if l.any (fun m => m.epicNumber == e.epicNumber) then
    l.map fun m => if m.epicNumber = e.epicNumber then e else m
  else l ++ [e]

/-- `EpicNumberingSystem.reserve_epic_range` (epic_numbering.py:135-184):
raises `ValueError` on conflicts, otherwise registers the range and rebuilds
`reserved_ranges`.  `now` stands for `datetime.now()` in `reserved_at`. -/
def reserve_epic_range (cfg : NumberingSystemCfg) (now : LC)
    (reg : NumberingRegistry) (epicNumber : Int) :
    Except LC (NumberingRegistry × EpicNumberRange) :=
  let r := calculate_epic_range cfg epicNumber
  if check_conflicts reg.epics r ≠ [] then
    .error (("range conflict").toList)
  else
    let entry : EpicEntry :=
      { epicNumber := epicNumber
        base := r.baseNumber
        rangeStart := r.rangeStart
        rangeEnd := r.rangeEnd
        reservedCount := r.reservedCount
        reservedAt := now }
    let epics := upsertEpic reg.epics entry
    .ok ({ epics := epics
           reservedRanges := epics.map fun m => (m.rangeStart, m.rangeEnd) }, r)

/-- A sequence of `reserve_epic_range` calls; a call that raises leaves the
registry unchanged (the source raises before mutating). -/
def runReserves (cfg : NumberingSystemCfg) (now : LC) (reg : NumberingRegistry)
    (ns : List Int) : NumberingRegistry :=
  ns.foldl
    (fun acc n =>
      match reserve_epic_range cfg now acc n with
      | .ok (reg2, _) => reg2
      | .error _ => acc)
    reg

/-- The empty registry created by `_create_empty_registry`. -/
def emptyNumberingRegistry : NumberingRegistry where
  epics := []
  reservedRanges := []

/-- Two reserved ranges share no integer point. -/
def rangesDisjoint (a b : EpicEntry) : Prop :=
  ∀ x : Int, ¬ (a.rangeStart ≤ x ∧ x ≤ a.rangeEnd ∧
    b.rangeStart ≤ x ∧ x ≤ b.rangeEnd)

/-- The non-overlap invariant of the registry, plus key uniqueness of the
`epics` dict. -/
def RegistryDisjoint (reg : NumberingRegistry) : Prop :=
  (∀ e1 ∈ reg.epics, ∀ e2 ∈ reg.epics,
    e1.epicNumber ≠ e2.epicNumber → rangesDisjoint e1 e2) ∧
  (reg.epics.map EpicEntry.epicNumber).Nodup

theorem rangesDisjoint_symm {a b : EpicEntry} (h : rangesDisjoint a b) :
    rangesDisjoint b a := by
  intro x hx
  exact h x ⟨hx.2.2.1, hx.2.2.2, hx.1, hx.2.1⟩

theorem rangesDisjoint_of_no_overlap {a b : EpicEntry}
    (h : ¬ (b.rangeStart ≤ a.rangeEnd ∧ a.rangeStart ≤ b.rangeEnd)) :
    rangesDisjoint b a := by
  intro x hx
  exact h ⟨le_trans hx.1 hx.2.2.2, le_trans hx.2.2.1 hx.2.1⟩

theorem check_conflicts_empty {epics : List EpicEntry} {r : EpicNumberRange}
    (h : check_conflicts epics r = []) :
    ∀ m ∈ epics, m.epicNumber = r.epicNumber ∨
      ¬ (r.rangeStart ≤ m.rangeEnd ∧ m.rangeStart ≤ r.rangeEnd) := by
  intro m hm
  by_cases hnum : m.epicNumber = r.epicNumber
  · exact Or.inl hnum
  · right
    intro hov
    have : m ∈ check_conflicts epics r := by
      apply List.mem_filter.mpr
      exact ⟨hm, by simp [hnum, hov.1, hov.2]⟩
    rw [h] at this
    exact absurd this (List.not_mem_nil m)

theorem mem_upsertEpic {l : List EpicEntry} {e m : EpicEntry}
    (h : m ∈ upsertEpic l e) : m = e ∨ (m ∈ l ∧ m.epicNumber ≠ e.epicNumber) := by
  unfold upsertEpic at h
  split at h
  · obtain ⟨x, hx, hxm⟩ := List.mem_map.mp h
    by_cases hn : x.epicNumber = e.epicNumber
    · left; rw [if_pos hn] at hxm; exact hxm.symm
    · right
      rw [if_neg hn] at hxm
      subst hxm
      exact ⟨hx, hn⟩
  · rename_i hany
    rcases List.mem_append.mp h with h | h
    · by_cases hn : m.epicNumber = e.epicNumber
      · exact absurd (List.any_eq_true.mpr ⟨m, h, by simp [hn]⟩) hany
      · right; exact ⟨h, hn⟩
    · left; exact (List.mem_singleton.mp h)

theorem upsertEpic_nodup {l : List EpicEntry} {e : EpicEntry}
    (h : (l.map EpicEntry.epicNumber).Nodup) :
    ((upsertEpic l e).map EpicEntry.epicNumber).Nodup := by
  unfold upsertEpic
  split
  · have : (l.map fun m => if m.epicNumber = e.epicNumber then e else m).map
        EpicEntry.epicNumber = l.map EpicEntry.epicNumber := by
      rw [List.map_map]
      apply List.map_congr_left
      intro m _
      by_cases hn : m.epicNumber = e.epicNumber
      · simp [hn]
      · simp [hn]
    rw [this]
    exact h
  · rename_i hany
    rw [List.map_append]
    simp only [List.map_cons, List.map_nil]
    apply List.Nodup.append h (by simp)
    intro x hx hx2
    simp only [List.mem_singleton] at hx2
    obtain ⟨m, hm, hmx⟩ := List.mem_map.mp hx
    apply hany
    apply List.any_eq_true.mpr
    exact ⟨m, hm, by simp [hmx, hx2]⟩

/-- C6 invariant step: a successful reservation preserves pairwise
disjointness. -/
theorem reserve_preserves_disjoint (cfg : NumberingSystemCfg) (now : LC)
    {reg reg2 : NumberingRegistry} {n : Int} {r : EpicNumberRange}
    (hinv : RegistryDisjoint reg)
    (h : reserve_epic_range cfg now reg n = .ok (reg2, r)) :
    RegistryDisjoint reg2 := by
  unfold reserve_epic_range at h
  by_cases hc : check_conflicts reg.epics (calculate_epic_range cfg n) ≠ []
  · rw [if_pos hc] at h
    exact absurd h (by simp)
  · rw [if_neg hc] at h
    injection h with h2
    injection h2 with h3 h4
    push_neg at hc
    have hclear := check_conflicts_empty hc
    subst h3
    constructor
    · intro e1 he1 e2 he2 hne
      have hme1 := mem_upsertEpic he1
      have hme2 := mem_upsertEpic he2
      rcases hme1 with rfl | ⟨hm1, hn1⟩
      · rcases hme2 with rfl | ⟨hm2, hn2⟩
        · exact absurd rfl hne
        · rcases hclear e2 hm2 with hsame | hov
          · have hn2n : e2.epicNumber ≠ n := by simpa using hn2
            have hsn : e2.epicNumber = n := by
              simpa [calculate_epic_range] using hsame
            exact absurd hsn hn2n
          · exact rangesDisjoint_of_no_overlap hov
      · rcases hme2 with rfl | ⟨hm2, hn2⟩
        · rcases hclear e1 hm1 with hsame | hov
          · have hn1n : e1.epicNumber ≠ n := by simpa using hn1
            have hsn : e1.epicNumber = n := by
              simpa [calculate_epic_range] using hsame
            exact absurd hsn hn1n
          · exact rangesDisjoint_symm (rangesDisjoint_of_no_overlap hov)
        · exact hinv.1 e1 hm1 e2 hm2 hne
    · exact upsertEpic_nodup hinv.2

/-- C6: after any sequence of `reserve_epic_range` calls that returned
successfully, starting from the empty registry, the reserved ranges of any two
registered epics with distinct epic numbers are disjoint. -/
theorem c6_numbering_non_overlap (cfg : NumberingSystemCfg) (now : LC)
    (ns : List Int) (e1 e2 : EpicEntry)
    (h1 : e1 ∈ (runReserves cfg now emptyNumberingRegistry ns).epics)
    (h2 : e2 ∈ (runReserves cfg now emptyNumberingRegistry ns).epics)
    (hne : e1.epicNumber ≠ e2.epicNumber) :
    rangesDisjoint e1 e2 := by
  suffices hgen : ∀ (ms : List Int) (reg : NumberingRegistry),
      RegistryDisjoint reg → RegistryDisjoint (runReserves cfg now reg ms) by
    have hbase : RegistryDisjoint emptyNumberingRegistry := by
      constructor
      · intro a ha
        exact absurd ha (List.not_mem_nil a)
      · simp [emptyNumberingRegistry]
    exact (hgen ns emptyNumberingRegistry hbase).1 e1 h1 e2 h2 hne
  intro ms
  induction ms with
  | nil => intro reg hreg; exact hreg
  | cons n rest ih =>
    intro reg hreg
    show RegistryDisjoint ((n :: rest).foldl _ reg)
    rw [List.foldl_cons]
    apply ih
    cases h : reserve_epic_range cfg now reg n with
    | ok p =>
      simp only [h]
      exact reserve_preserves_disjoint cfg now hreg (by rw [h])
    | error e =>
      simp only [h]
      exact hreg

theorem c6_numbering_non_overlap_witness :
    ¬ ((360 : Int) ≤ 360 ∧ (360 : Int) ≤ 379 ∧ (380 : Int) ≤ 360 ∧
      (360 : Int) ≤ 399) := by
  have hrun :
      (runReserves ⟨360, 20⟩ [] emptyNumberingRegistry [1, 2]).epics =
        [⟨1, 360, 360, 379, 20, []⟩, ⟨2, 380, 380, 399, 20, []⟩] := by decide
  have hd := c6_numbering_non_overlap ⟨360, 20⟩ [] [1, 2]
    ⟨1, 360, 360, 379, 20, []⟩ ⟨2, 380, 380, 399, 20, []⟩
    (by rw [hrun]; simp) (by rw [hrun]; simp) (by decide)
  exact hd 360

/- ------------------------------------------------------------------ -/
/- Tracker CLI wrapper retries (linctl_wrapper.py `_exec`).            -/
/- ------------------------------------------------------------------ -/

/-- Python `in` on strings: substring containment. -/
def listContains (hay needle : LC) : Bool :=
  hay.tails.any fun t => needle.isPrefixOf t

/-- Python `str.lower()` (the statuses and error messages involved are
ASCII). -/
def pyLower (s : LC) : LC := s.map Char.toLower

/-- The transient-error classifier of `_exec` (linctl_wrapper.py:168):
`any(keyword in error_msg.lower() for keyword in
["rate limit", "timeout", "network"])`. -/
def isTransientMsg (msg : LC) : Bool :=
  listContains (pyLower msg) (("rate limit").toList) ||
  listContains (pyLower msg) (("timeout").toList) ||
  listContains (pyLower msg) (("network").toList)

/-- Outcome of one `subprocess.run` invocation of the external binary:
exit 0 with stdout, non-zero exit with the stripped error message
(`stderr or stdout`), or `TimeoutExpired`. -/
inductive ExecOutcome
  | success (response : LC)
  | failure (errorMsg : LC)
  | timedOut
deriving DecidableEq

/-- Whether an outcome makes `_exec` retry (when budget remains). -/
def retryTrigger (o : ExecOutcome) : Bool :=
  match o with
  | .success _ => false
  | .failure msg => isTransientMsg msg
  | .timedOut => true

/-- Observable behaviour of one `_exec` call: how many times the external
command was invoked, the `time.sleep` delays in order, and the result. -/
structure ExecTrace where
  invocations : Nat
  delays : List ℚ
  result : Except LC LC

/-- The `for attempt in range(retries + 1)` loop of `_exec`
(linctl_wrapper.py:143-206), driven by an oracle giving each attempt's
subprocess outcome.  `retryDelay` is the constructor's base delay (a float in
the source, modelled exactly as a rational: scaling by `2 ** attempt` is exact
in binary floating point).  The fuel argument equals the remaining loop
iterations, so the `fuel = 0` fallthrough mirrors the unreachable final
`raise` after the loop. -/
def execLoop (retryDelay : ℚ) (retries : Nat) (outcomes : Nat → ExecOutcome) :
    Nat → Nat → ExecTrace
  | 0, _ =>
    { invocations := 0, delays := []
      result := .error (("command failed after retries").toList) }
  | fuel + 1, attempt =>
    match outcomes attempt with
    | .success r => { invocations := 1, delays := [], result := .ok r }
    | .failure msg =>
      if isTransientMsg msg ∧ attempt < retries then
        let t := execLoop retryDelay retries outcomes fuel (attempt + 1)
        { invocations := t.invocations + 1
          delays := retryDelay * 2 ^ attempt :: t.delays
          result := t.result }
      else
        { invocations := 1, delays := []
          result := .error (("command failed").toList ++ msg) }
    | .timedOut =>
      if attempt < retries then
        let t := execLoop retryDelay retries outcomes fuel (attempt + 1)
        { invocations := t.invocations + 1
          delays := retryDelay * 2 ^ attempt :: t.delays
          result := t.result }
      else
        { invocations := 1, delays := []
          result := .error (("command timed out").toList) }

/-- `LinctlWrapper._exec` with an explicit retry budget. -/
def linctl_exec (retryDelay : ℚ) (retries : Nat) (outcomes : Nat → ExecOutcome) :
    ExecTrace :=
  execLoop retryDelay retries outcomes (retries + 1) 0

theorem execLoop_spec (d : ℚ) (retries : Nat) (out : Nat → ExecOutcome) :
    ∀ (fuel attempt : Nat), attempt + fuel = retries + 1 → attempt ≤ retries →
      1 ≤ (execLoop d retries out fuel attempt).invocations ∧
      (execLoop d retries out fuel attempt).invocations ≤ fuel ∧
      (execLoop d retries out fuel attempt).delays =
        (List.range ((execLoop d retries out fuel attempt).invocations - 1)).map
          (fun k => d * 2 ^ (attempt + k)) ∧
      ∀ k < (execLoop d retries out fuel attempt).invocations - 1,
        retryTrigger (out (attempt + k)) = true := by
  intro fuel
  induction fuel with
  | zero => intro attempt hf ha; omega
  | succ fuel ih =>
    intro attempt hf ha
    have hstep : ∀ (msg : Except LC LC),
        (execLoop d retries out (fuel + 1) attempt =
          { invocations := (execLoop d retries out fuel (attempt + 1)).invocations + 1
            delays := d * 2 ^ attempt ::
              (execLoop d retries out fuel (attempt + 1)).delays
            result := (execLoop d retries out fuel (attempt + 1)).result }) →
        attempt + 1 ≤ retries →
        retryTrigger (out attempt) = true →
        1 ≤ (execLoop d retries out (fuel + 1) attempt).invocations ∧
        (execLoop d retries out (fuel + 1) attempt).invocations ≤ fuel + 1 ∧
        (execLoop d retries out (fuel + 1) attempt).delays =
          (List.range ((execLoop d retries out (fuel + 1) attempt).invocations - 1)).map
            (fun k => d * 2 ^ (attempt + k)) ∧
        ∀ k < (execLoop d retries out (fuel + 1) attempt).invocations - 1,
          retryTrigger (out (attempt + k)) = true := by
      intro _ hunf ha2 htrig
      obtain ⟨h1, h2, h3, h4⟩ := ih (attempt + 1) (by omega) (by omega)
      rw [hunf]
      refine ⟨by simp, by simpa using h2, ?_, ?_⟩
      · show d * 2 ^ attempt :: (execLoop d retries out fuel (attempt + 1)).delays =
          (List.range ((execLoop d retries out fuel (attempt + 1)).invocations + 1 - 1)).map
            (fun k => d * 2 ^ (attempt + k))
        rw [h3]
        generalize (execLoop d retries out fuel (attempt + 1)).invocations = n at h1
        rw [show n + 1 - 1 = (n - 1) + 1 from by omega, List.range_succ_eq_map,
          List.map_cons, List.map_map]
        refine congrArg₂ List.cons (by simp) ?_
        refine List.map_congr_left (fun k hk => ?_)
        show d * 2 ^ (attempt + 1 + k) = d * 2 ^ (attempt + Nat.succ k)
        rw [show attempt + 1 + k = attempt + Nat.succ k from by omega]
      · show ∀ k < (execLoop d retries out fuel (attempt + 1)).invocations + 1 - 1,
          retryTrigger (out (attempt + k)) = true
        intro k hk
        cases k with
        | zero => simpa using htrig
        | succ j =>
          rw [show attempt + (j + 1) = attempt + 1 + j from by omega]
          exact h4 j (by omega)
    cases hout : out attempt with
    | success r =>
      refine ⟨?_, ?_, ?_, ?_⟩ <;> simp [execLoop, hout]
    | failure msg =>
      by_cases hretry : isTransientMsg msg ∧ attempt < retries
      · exact hstep (.ok []) (by simp [execLoop, hout, hretry]) (by omega)
          (by simp [retryTrigger, hout, hretry.1])
      · refine ⟨?_, ?_, ?_, ?_⟩ <;> simp [execLoop, hout, hretry]
    | timedOut =>
      by_cases hretry : attempt < retries
      · exact hstep (.ok []) (by simp [execLoop, hout, hretry]) (by omega)
          (by simp [retryTrigger, hout])
      · refine ⟨?_, ?_, ?_, ?_⟩ <;> simp [execLoop, hout, hretry]

/-- C7: a tracker CLI call with retry budget `retries` invokes the external
command at most `retries + 1` times; the delay before the k-th retry is
`retry_delay * 2 ^ k`; and every retry was triggered by a transient failure
(output matching rate limit / timeout / network, case-insensitively) or an
invocation timeout — any other non-zero exit stops the loop at once. -/
theorem c7_bounded_retries (retryDelay : ℚ) (retries : Nat)
    (outcomes : Nat → ExecOutcome) :
    (linctl_exec retryDelay retries outcomes).invocations ≤ retries + 1 ∧
    (linctl_exec retryDelay retries outcomes).delays =
      (List.range ((linctl_exec retryDelay retries outcomes).invocations - 1)).map
        (fun k => retryDelay * 2 ^ k) ∧
    ((List.range ((linctl_exec retryDelay retries outcomes).invocations - 1)).all
      (fun k => retryTrigger (outcomes k))) = true := by
  obtain ⟨h1, h2, h3, h4⟩ :=
    execLoop_spec retryDelay retries outcomes (retries + 1) 0 (by omega) (by omega)
  refine ⟨h2, ?_, ?_⟩
  · show (execLoop retryDelay retries outcomes (retries + 1) 0).delays =
      (List.range ((execLoop retryDelay retries outcomes (retries + 1) 0).invocations
        - 1)).map (fun k => retryDelay * 2 ^ k)
    rw [h3]
    apply List.map_congr_left
    intro k _
    rw [Nat.zero_add]
  · show ((List.range ((execLoop retryDelay retries outcomes (retries + 1) 0).invocations
        - 1)).all (fun k => retryTrigger (outcomes k))) = true
    apply List.all_eq_true.mpr
    intro k hk
    have := h4 k (List.mem_range.mp hk)
    simpa using this

/- ------------------------------------------------------------------ -/
/- Three-way merge (three_way_merge.py).                               -/
/- ------------------------------------------------------------------ -/

/-- `ThreeWayConflict` (three_way_merge.py:20-31); update timestamps are the
parsed instants the comparisons use. -/
structure ThreeWayConflict where
  conflictId : LC
  contentKey : LC
  bmadState : LC
  linearState : LC
  ancestorState : Option LC
  bmadUpdated : Int
  linearUpdated : Int
  ancestorUpdated : Option Int
  conflictType : LC
deriving DecidableEq

/-- Python truthiness of `conflict.ancestor_state` (None and the empty string
are falsy). -/
def hasAncestor (c : ThreeWayConflict) : Bool :=
  match c.ancestorState with
  | none => false
  | some a => decide (a ≠ [])

/-- `ThreeWayMerge._recommend_three_way_resolution`
(three_way_merge.py:241-274).  `bmad_time > linear_time` picks BMAD; ties fall
to the Linear side. -/
def recommend_three_way_resolution (c : ThreeWayConflict) : LC × ℚ :=
  match c.ancestorState with
  | none => ((("intelligent-merge (no ancestor available)").toList), 1/2)
  | some a =>
    if a = [] then ((("intelligent-merge (no ancestor available)").toList), 1/2)
    else if c.bmadState = a then
      ((("keep-linear (BMAD unchanged since ancestor)").toList), 9/10)
    else if c.linearState = a then
      ((("keep-bmad (Linear unchanged since ancestor)").toList), 9/10)
    else if c.linearUpdated < c.bmadUpdated then
      ((("keep-bmad (more recent changes)").toList), 7/10)
    else
      ((("keep-linear (more recent changes)").toList), 7/10)

/-- The dictionary returned by `ThreeWayMerge.perform_three_way_merge`. -/
structure MergeResolution where
  state : LC
  source : LC
  updated : Option Int
  mergeType : LC
  resolution : LC
  confidence : Option ℚ
deriving DecidableEq

/-- `ThreeWayMerge.perform_three_way_merge` (three_way_merge.py:345-419). -/
def perform_three_way_merge (c : ThreeWayConflict) (strategy : LC) :
    MergeResolution :=
  if strategy = ("keep-bmad").toList then
    { state := c.bmadState, source := ("bmad").toList, updated := some c.bmadUpdated
      mergeType := ("three-way").toList, resolution := ("manual-bmad").toList
      confidence := none }
  else if strategy = ("keep-linear").toList then
    { state := c.linearState, source := ("linear").toList
      updated := some c.linearUpdated, mergeType := ("three-way").toList
      resolution := ("manual-linear").toList, confidence := none }
  else if strategy = ("ancestor").toList ∧ hasAncestor c = true then
    { state := c.ancestorState.getD [], source := ("ancestor").toList
      updated := c.ancestorUpdated, mergeType := ("three-way").toList
      resolution := ("revert-to-ancestor").toList, confidence := none }
  else
    let rc := recommend_three_way_resolution c
    if listContains rc.1 (("keep-bmad").toList) then
      { state := c.bmadState, source := ("bmad").toList
        updated := some c.bmadUpdated, mergeType := ("three-way").toList
        resolution := ("auto").toList, confidence := some rc.2 }
    else if listContains rc.1 (("keep-linear").toList) then
      { state := c.linearState, source := ("linear").toList
        updated := some c.linearUpdated, mergeType := ("three-way").toList
        resolution := ("auto").toList, confidence := some rc.2 }
    else if c.linearUpdated < c.bmadUpdated then
      { state := c.bmadState, source := ("bmad").toList
        updated := some c.bmadUpdated, mergeType := ("three-way").toList
        resolution := ("auto").toList, confidence := some rc.2 }
    else
      { state := c.linearState, source := ("linear").toList
        updated := some c.linearUpdated, mergeType := ("three-way").toList
        resolution := ("auto").toList, confidence := some rc.2 }

/-- The confidence C8 predicts, read off the claim text (local = BMAD,
remote = Linear; an ancestor is present when it is a non-empty state). -/
def claimConfidence (c : ThreeWayConflict) : ℚ :=
  match c.ancestorState with
  | none => 1/2
  | some a =>
    if a = [] then 1/2
    else if c.bmadState = a then 9/10
    else if c.linearState = a then 9/10
    else 7/10

/-- The resolved state C8 predicts: keep-remote applies the Linear state,
keep-local the BMAD state, and otherwise the side with the newer update
timestamp wins. -/
def claimAppliedState (c : ThreeWayConflict) : LC :=
  match c.ancestorState with
  | none => if c.linearUpdated < c.bmadUpdated then c.bmadState else c.linearState
  | some a =>
    if a = [] then
      (if c.linearUpdated < c.bmadUpdated then c.bmadState else c.linearState)
    else if c.bmadState = a then c.linearState
    else if c.linearState = a then c.bmadState
    else if c.linearUpdated < c.bmadUpdated then c.bmadState else c.linearState

theorem kb_in_kb_recent : listContains
    (("keep-bmad (more recent changes)").toList) (("keep-bmad").toList) = true := by
  decide

theorem kb_in_kb_anc : listContains
    (("keep-bmad (Linear unchanged since ancestor)").toList)
    (("keep-bmad").toList) = true := by decide

theorem kb_in_kl_anc : listContains
    (("keep-linear (BMAD unchanged since ancestor)").toList)
    (("keep-bmad").toList) = false := by decide

theorem kl_in_kl_anc : listContains
    (("keep-linear (BMAD unchanged since ancestor)").toList)
    (("keep-linear").toList) = true := by decide

theorem kb_in_kl_recent : listContains
    (("keep-linear (more recent changes)").toList)
    (("keep-bmad").toList) = false := by decide

theorem kl_in_kl_recent : listContains
    (("keep-linear (more recent changes)").toList)
    (("keep-linear").toList) = true := by decide

theorem kb_in_intmerge : listContains
    (("intelligent-merge (no ancestor available)").toList)
    (("keep-bmad").toList) = false := by decide

theorem kl_in_intmerge : listContains
    (("intelligent-merge (no ancestor available)").toList)
    (("keep-linear").toList) = false := by decide

/-- C8: the three-way recommendation confidences are 0.9 when one side equals
the ancestor, 0.7 when both moved (newer side wins), 0.5 with no usable
ancestor (recent-wins) — and the `auto` strategy applies the recommended
side. -/
theorem recommend_some (c : ThreeWayConflict) (a : LC)
    (h : c.ancestorState = some a) :
    recommend_three_way_resolution c =
      (if a = [] then ((("intelligent-merge (no ancestor available)").toList), (1/2 : ℚ))
       else if c.bmadState = a then
        ((("keep-linear (BMAD unchanged since ancestor)").toList), 9/10)
       else if c.linearState = a then
        ((("keep-bmad (Linear unchanged since ancestor)").toList), 9/10)
       else if c.linearUpdated < c.bmadUpdated then
        ((("keep-bmad (more recent changes)").toList), 7/10)
       else ((("keep-linear (more recent changes)").toList), 7/10)) := by
  unfold recommend_three_way_resolution
  rw [h]

theorem claimConfidence_some (c : ThreeWayConflict) (a : LC)
    (h : c.ancestorState = some a) :
    claimConfidence c =
      (if a = [] then (1/2 : ℚ)
       else if c.bmadState = a then 9/10
       else if c.linearState = a then 9/10
       else 7/10) := by
  unfold claimConfidence
  rw [h]

theorem claimAppliedState_some (c : ThreeWayConflict) (a : LC)
    (h : c.ancestorState = some a) :
    claimAppliedState c =
      (if a = [] then
        (if c.linearUpdated < c.bmadUpdated then c.bmadState else c.linearState)
       else if c.bmadState = a then c.linearState
       else if c.linearState = a then c.bmadState
       else if c.linearUpdated < c.bmadUpdated then c.bmadState
       else c.linearState) := by
  unfold claimAppliedState
  rw [h]

theorem c8_three_way_recommendation (c : ThreeWayConflict)
    (hne : c.bmadUpdated ≠ c.linearUpdated) :
    (recommend_three_way_resolution c).2 = claimConfidence c ∧
    (perform_three_way_merge c (("auto").toList)).state = claimAppliedState c ∧
    (perform_three_way_merge c (("auto").toList)).confidence =
      some (claimConfidence c) := by
  have hstrat1 : (("auto").toList : LC) ≠ ("keep-bmad").toList := by decide
  have hstrat2 : (("auto").toList : LC) ≠ ("keep-linear").toList := by decide
  have hstrat3 : ¬ ((("auto").toList : LC) = ("ancestor").toList ∧ hasAncestor c = true) := by
    rintro ⟨h, -⟩
    exact absurd h (by decide)
  unfold perform_three_way_merge
  rw [if_neg hstrat1, if_neg hstrat2, if_neg hstrat3]
  cases hanc : c.ancestorState with
  | none =>
    have hrec : recommend_three_way_resolution c =
        ((("intelligent-merge (no ancestor available)").toList), 1/2) := by
      unfold recommend_three_way_resolution
      rw [hanc]
    have hcc : claimConfidence c = 1/2 := by
      unfold claimConfidence
      rw [hanc]
    by_cases ht : c.linearUpdated < c.bmadUpdated
    · have hcs : claimAppliedState c = c.bmadState := by
        unfold claimAppliedState
        rw [hanc]
        exact if_pos ht
      refine ⟨by rw [hrec, hcc], ?_, ?_⟩ <;>
        · simp only [hrec, kb_in_intmerge, kl_in_intmerge, Bool.false_eq_true,
            if_false]
          rw [if_pos ht]; simp [hcs, hcc]
    · have hcs : claimAppliedState c = c.linearState := by
        unfold claimAppliedState
        rw [hanc]
        exact if_neg ht
      refine ⟨by rw [hrec, hcc], ?_, ?_⟩ <;>
        · simp only [hrec, kb_in_intmerge, kl_in_intmerge, Bool.false_eq_true,
            if_false]
          rw [if_neg ht]; simp [hcs, hcc]
  | some a =>
    have hrec0 := recommend_some c a hanc
    have hcc0 := claimConfidence_some c a hanc
    have hcs0 := claimAppliedState_some c a hanc
    by_cases ha : a = []
    · rw [if_pos ha] at hrec0 hcc0 hcs0
      by_cases ht : c.linearUpdated < c.bmadUpdated
      · rw [if_pos ht] at hcs0
        refine ⟨by rw [hrec0, hcc0], ?_, ?_⟩ <;>
          · simp only [hrec0, kb_in_intmerge, kl_in_intmerge, Bool.false_eq_true,
              if_false]
            rw [if_pos ht]; simp [hcs0, hcc0]
      · rw [if_neg ht] at hcs0
        refine ⟨by rw [hrec0, hcc0], ?_, ?_⟩ <;>
          · simp only [hrec0, kb_in_intmerge, kl_in_intmerge, Bool.false_eq_true,
              if_false]
            rw [if_neg ht]; simp [hcs0, hcc0]
    · rw [if_neg ha] at hrec0 hcc0 hcs0
      by_cases hb : c.bmadState = a
      · rw [if_pos hb] at hrec0 hcc0 hcs0
        refine ⟨by rw [hrec0, hcc0], ?_, ?_⟩ <;>
          · simp only [hrec0, kb_in_kl_anc, kl_in_kl_anc, Bool.false_eq_true,
              if_false, if_true]
            simp [hcs0, hcc0]
      · rw [if_neg hb] at hrec0 hcc0 hcs0
        by_cases hl : c.linearState = a
        · rw [if_pos hl] at hrec0 hcc0 hcs0
          refine ⟨by rw [hrec0, hcc0], ?_, ?_⟩ <;>
            · simp only [hrec0, kb_in_kb_anc, if_true]
              simp [hcs0, hcc0]
        · rw [if_neg hl] at hrec0 hcc0 hcs0
          by_cases ht : c.linearUpdated < c.bmadUpdated
          · rw [if_pos ht] at hrec0 hcs0
            refine ⟨by rw [hrec0, hcc0], ?_, ?_⟩ <;>
              · simp only [hrec0, kb_in_kb_recent, if_true]
                simp [hcs0, hcc0]
          · rw [if_neg ht] at hrec0 hcs0
            refine ⟨by rw [hrec0, hcc0], ?_, ?_⟩ <;>
              · simp only [hrec0, kb_in_kl_recent, kl_in_kl_recent,
                  Bool.false_eq_true, if_false, if_true]
                simp [hcs0, hcc0]

theorem c8_three_way_recommendation_witness :
    (recommend_three_way_resolution
      { conflictId := []
        contentKey := (("2-1-s").toList)
        bmadState := (("review").toList)
        linearState := (("ready-for-dev").toList)
        ancestorState := some (("ready-for-dev").toList)
        bmadUpdated := 10
        linearUpdated := 9
        ancestorUpdated := some 1
        conflictType := (("three-way").toList) }).2 = 9/10 := by
  have h := c8_three_way_recommendation
    { conflictId := []
      contentKey := (("2-1-s").toList)
      bmadState := (("review").toList)
      linearState := (("ready-for-dev").toList)
      ancestorState := some (("ready-for-dev").toList)
      bmadUpdated := 10
      linearUpdated := 9
      ancestorUpdated := some 1
      conflictType := (("three-way").toList) } (by decide)
  rw [h.1, claimConfidence_some _ (("ready-for-dev").toList) rfl,
    if_neg (by decide), if_neg (by decide), if_pos (by decide)]

/- ------------------------------------------------------------------ -/
/- Content discovery diff (content_discovery.py `discover_all`).       -/
/- ------------------------------------------------------------------ -/

/-- A story entry of the content index (content_discovery.py:118-132): the
values the sync pipeline reads.  Fields absent from a parsed entry are
`none`. -/
structure StoryMeta where
  file : Option LC
  hash : Option LC
  epic : Option Int
  story : Option Int
  title : Option LC
  status : Option LC
deriving DecidableEq

/-- An epic entry of the content index (content_discovery.py:103-108). -/
structure EpicMeta where
  file : Option LC
  hash : Option LC
  title : Option LC
deriving DecidableEq

/-- The content index `{last_scan, epics, stories}`; the `epics` and
`stories` dictionaries are keyed by content key. -/
structure ContentIndex where
  lastScan : LC
  epics : List (LC × EpicMeta)
  stories : List (LC × StoryMeta)
deriving DecidableEq

/-- The `{added, modified, deleted}` change sets of `discover_all`. -/
structure Changes where
  added : List LC
  modified : List LC
  deleted : List LC
deriving DecidableEq

/-- Python `dict.get` on the stories map. -/
def lookupStory (stories : List (LC × StoryMeta)) (k : LC) : Option StoryMeta :=
  (stories.find? (fun kv => kv.1 == k)).map Prod.snd

/-- The `modified` test of `discover_all` (content_discovery.py:156-158):
for a key of the current index also present in the previous one, compare the
`hash` fields. -/
def modifiedB (prevS curS : List (LC × StoryMeta)) (k : LC) : Bool :=
  match lookupStory prevS k, lookupStory curS k with
  | some pm, some cm => decide (¬ (cm.hash = pm.hash))
  | _, _ => false

/-- The diff part of `ContentDiscovery.discover_all`
(content_discovery.py:136-160): with no previous index the changes are empty
(baseline run); otherwise story keys are compared — `added` = current minus
previous keys, `deleted` = previous minus current keys, `modified` = keys in
both whose hashes differ.  Epic keys are not compared. -/
def discover_changes (previous : Option ContentIndex) (current : ContentIndex) :
    Changes :=
  match previous with
  | none => ⟨[], [], []⟩
  | some prev =>
    { added := (current.stories.map Prod.fst).filter
        (fun k => decide (lookupStory prev.stories k = none))
      modified := (current.stories.map Prod.fst).filter
        (fun k => modifiedB prev.stories current.stories k)
      deleted := (prev.stories.map Prod.fst).filter
        (fun k => decide (lookupStory current.stories k = none)) }

/-- `ContentDiscovery.discover_all` (content_discovery.py:136-160): the
current index (built from the filesystem by `_build_current_index`, given
here as input) together with the change sets. -/
def discover_all (current : ContentIndex) (previous : Option ContentIndex) :
    ContentIndex × Changes :=
  (current, discover_changes previous current)

theorem lookupStory_isSome_iff (s : List (LC × StoryMeta)) (k : LC) :
    (lookupStory s k).isSome = true ↔ k ∈ s.map Prod.fst := by
  unfold lookupStory
  constructor
  · intro h
    cases hf : s.find? (fun kv => kv.1 == k) with
    | none => rw [hf] at h; simp at h
    | some kv =>
      have hmem := List.mem_of_find?_eq_some hf
      have hk := List.find?_some hf
      simp only [beq_iff_eq] at hk
      rw [List.mem_map]
      exact ⟨kv, hmem, hk⟩
  · intro hk
    obtain ⟨kv, hkv, hk2⟩ := List.mem_map.mp hk
    cases hf : s.find? (fun kv => kv.1 == k) with
    | none =>
      have hnone := List.find?_eq_none.mp hf kv hkv
      simp [hk2] at hnone
    | some kv2 => rfl

/-- C4 (amended): for every previous and current index, `discover_all`
classifies story keys by presence and hash equality — `added` holds exactly
the current story keys absent from the previous index, `deleted` exactly the
previous story keys absent from the current one, and `modified` exactly the
story keys present in both whose hashes differ.  Story keys present in both
with equal hashes (and all epic keys) are in none of the three sets, so the
sets are pairwise disjoint but cover only the changed part of the key
union. -/
theorem c4_diff_classification (prev cur : ContentIndex) (k : LC) :
    (k ∈ (discover_changes (some prev) cur).added ↔
      k ∈ cur.stories.map Prod.fst ∧ lookupStory prev.stories k = none) ∧
    (k ∈ (discover_changes (some prev) cur).deleted ↔
      k ∈ prev.stories.map Prod.fst ∧ lookupStory cur.stories k = none) ∧
    (k ∈ (discover_changes (some prev) cur).modified ↔
      k ∈ cur.stories.map Prod.fst ∧
        ∃ pm cm, lookupStory prev.stories k = some pm ∧
          lookupStory cur.stories k = some cm ∧ cm.hash ≠ pm.hash) := by
  refine ⟨?_, ?_, ?_⟩
  · rw [show (discover_changes (some prev) cur).added =
      (cur.stories.map Prod.fst).filter
        (fun k => decide (lookupStory prev.stories k = none)) from rfl,
      List.mem_filter, decide_eq_true_eq]
  · rw [show (discover_changes (some prev) cur).deleted =
      (prev.stories.map Prod.fst).filter
        (fun k => decide (lookupStory cur.stories k = none)) from rfl,
      List.mem_filter, decide_eq_true_eq]
  · rw [show (discover_changes (some prev) cur).modified =
      (cur.stories.map Prod.fst).filter
        (fun k => modifiedB prev.stories cur.stories k) from rfl,
      List.mem_filter]
    constructor
    · rintro ⟨hmem, hmod⟩
      refine ⟨hmem, ?_⟩
      unfold modifiedB at hmod
      cases hp : lookupStory prev.stories k with
      | none => rw [hp] at hmod; simp at hmod
      | some pm =>
        cases hc : lookupStory cur.stories k with
        | none => rw [hp, hc] at hmod; simp at hmod
        | some cm =>
          rw [hp, hc] at hmod
          simp only [decide_eq_true_eq] at hmod
          exact ⟨pm, cm, rfl, rfl, hmod⟩
    · rintro ⟨hmem, pm, cm, hp, hc, hne⟩
      refine ⟨hmem, ?_⟩
      unfold modifiedB
      rw [hp, hc]
      simpa using hne

/-- A one-story index: running the diff against itself classifies the
(unchanged) key into none of the three sets. -/
def idxC4 : ContentIndex where
  lastScan := []
  epics := []
  stories := [((("1-1-s").toList),
    { file := some (("stories/1-1-s.md").toList)
      hash := some (("h1").toList)
      epic := some 1
      story := some 1
      title := some (("S").toList)
      status := some (("drafted").toList) })]

/-- C4 counterexample: with previous = current = `idxC4`, the key
`1-1-s` lies in the union of the two key sets but is classified into none of
`added`, `deleted`, `modified`, so the emitted sets do not partition the
union. -/
theorem c4_partition_counterexample :
    (("1-1-s").toList) ∈
        (idxC4.stories.map Prod.fst ++ idxC4.stories.map Prod.fst) ∧
    ¬ ((("1-1-s").toList) ∈ (discover_changes (some idxC4) idxC4).added ∨
       (("1-1-s").toList) ∈ (discover_changes (some idxC4) idxC4).deleted ∨
       (("1-1-s").toList) ∈ (discover_changes (some idxC4) idxC4).modified) := by
  decide

/- ------------------------------------------------------------------ -/
/- Durable state (state_manager.py, hierarchy.py) read by planning.    -/
/- ------------------------------------------------------------------ -/

/-- `hierarchy.json` (hierarchy.py:68-78). -/
structure HierarchyFile where
  epicsMap : List (LC × LC)
  storiesMap : List (LC × LC)
  relationships : List (LC × LC)
  children : List (LC × List LC)
deriving DecidableEq

/-- One entry of `renumbering_history` in `number_registry.json`
(renumber_engine.py:236-242). -/
structure RenumberRecord where
  oldKey : LC
  newKey : LC
  issueId : LC
  timestamp : LC
  reason : LC
deriving DecidableEq

/-- `number_registry.json` as `StateManager` and `RenumberEngine` use it:
`stories` maps a story key to its `linear_issue_key`; `legacy` is the old
flat key-to-string mapping still honoured by `get_issue_id`. -/
structure NumberRegistryFile where
  stories : List (LC × LC)
  renumberingHistory : List RenumberRecord
  legacy : List (LC × LC)
deriving DecidableEq

/-- `sync_state.json` (state_manager.py:70-76). -/
structure SyncStateFile where
  lastSync : Option LC
  operations : List LC
  errors : List LC
deriving DecidableEq

/-- The persistent state files of one project. `contentIndex` holds the
parsed `content_index.json` (`none` when the file is missing or not valid
JSON); file bytes are the canonical JSON dump of these values, so value
equality models byte equality. -/
structure StateFiles where
  contentIndex : Option ContentIndex
  syncState : SyncStateFile
  numberRegistry : NumberRegistryFile
  hierarchy : HierarchyFile
deriving DecidableEq

/-- `HierarchyManager.get_linear_id` (hierarchy.py:175-191): epics first,
falling through on a falsy value, then stories. -/
def get_linear_id (h : HierarchyFile) (key : LC) : Option LC :=
  match lookupLC h.epicsMap key with
  | some v => if v ≠ [] then some v else lookupLC h.storiesMap key
  | none => lookupLC h.storiesMap key

/-- The number-registry fallback of `StateManager.get_issue_id`
(state_manager.py:414-425): the `stories` entry when its
`linear_issue_key` is truthy, else the legacy flat mapping. -/
def registry_issue_id (reg : NumberRegistryFile) (key : LC) : Option LC :=
  match lookupLC reg.stories key with
  | some v => if v ≠ [] then some v else lookupLC reg.legacy key
  | none => lookupLC reg.legacy key

/-- `StateManager.get_issue_id` (state_manager.py:391-427): hierarchy first
(truthy values only), then the number registry. -/
def get_issue_id (st : StateFiles) (key : LC) : Option LC :=
  match get_linear_id st.hierarchy key with
  | some v => if v ≠ [] then some v else registry_issue_id st.numberRegistry key
  | none => registry_issue_id st.numberRegistry key

/-- Python truthiness of an optional string. -/
def optTruthy (o : Option LC) : Bool :=
  match o with
  | some v => decide (v ≠ [])
  | none => false

/- ------------------------------------------------------------------ -/
/- Sync engine planning (sync_engine.py).                              -/
/- ------------------------------------------------------------------ -/

/-- `SyncOperation` (sync_engine.py:36-49). -/
structure SyncOperation where
  action : LC
  contentKey : LC
  contentType : LC
  reason : LC
  title : Option LC
  previousHash : Option LC
  currentHash : Option LC
  issueId : Option LC
  state : Option LC
  project : Option LC
  team : Option LC
  labels : Option (List LC)
deriving DecidableEq

/-- `SyncEngine._determine_action` (sync_engine.py:87-91): `create` for
`added`, `update` otherwise.  The source also receives the two metadata
dictionaries and the key but reads only `reason`. -/
def determine_action (key reason : LC) : LC :=
  if reason = ("added").toList then ("create").toList else ("update").toList

/-- `SyncEngine._bmad_to_linear_state` (sync_engine.py:93-99): `None` for a
falsy state, the mapped state otherwise, with mapper errors swallowed to
`None`. -/
def bmad_to_linear_state (cfg : MapperConfig) (contentState : Option LC)
    (contentType : LC) : Option LC :=
  match contentState with
  | none => none
  | some s =>
    if s = [] then none
    else
      match bmad_to_linear cfg s contentType with
      | .ok v => some v
      | .error _ => none

/-- Python `str.replace(pat, rep)` for a non-empty pattern: leftmost,
non-overlapping occurrences (every call site passes a non-empty pattern). -/
def pyReplace (pat rep : LC) (s : LC) : LC :=
  match s with
  | [] => []
  | c :: rest =>
    if pat ≠ [] ∧ pat.isPrefixOf (c :: rest) then
      rep ++ pyReplace pat rep (rest.drop (pat.length - 1))
    else
      c :: pyReplace pat rep rest
termination_by s.length
decreasing_by
  all_goals simp_wf
  all_goals omega

/-- The done-like story statuses of `_aggregate_epic_state`
(sync_engine.py:252-253). -/
def is_done_like (s : LC) : Bool :=
  decide (s = ("done").toList) || decide (s = ("wont-do").toList) ||
  decide (s = ("wontdo").toList) ||
  decide (s = ['w', 'o', 'n', Char.ofNat 39, 't', '-', 'd', 'o'])

/-- `SyncEngine._aggregate_epic_state` (sync_engine.py:223-297): BMAD epic
state derived from the sprint-status story statuses of that epic plus the
retrospective entry. -/
def aggregate_epic_state (sprint : List (LC × LC)) (epicKey : LC) : Option LC :=
  if sprint.isEmpty then none
  else if ¬ (("epic-").toList).isPrefixOf epicKey then none
  else
    let epicNum := pyReplace (("epic-").toList) [] epicKey
    let storyStatuses := sprint.filter fun kv =>
      (epicNum ++ ['-']).isPrefixOf kv.1 && decide (kv.1.count '-' ≥ 2)
    let retro := (lookupLC sprint
      ((("epic-").toList) ++ epicNum ++ (("-retrospective").toList))).getD []
    let valuesNorm := storyStatuses.map fun kv => pyLower (pyStrip kv.2)
    let allDone := !valuesNorm.isEmpty && valuesNorm.all is_done_like
    let allReady := !valuesNorm.isEmpty &&
      valuesNorm.all fun s => decide (s = ("ready-for-dev").toList)
    let anyIp := valuesNorm.any fun s => decide (s = ("in-progress").toList)
    let anyReview := valuesNorm.any fun s => decide (s = ("review").toList)
    let retroCompleted := decide (pyLower (pyStrip retro) = ("completed").toList)
    if retroCompleted then some (("done").toList)
    else if allReady then some (("ready-for-dev").toList)
    else if allDone then some (("review").toList)
    else
      let anyDoneLike := valuesNorm.any is_done_like
      if anyIp || anyReview || (anyDoneLike && !allDone) then
        some (("in-progress").toList)
      else if !valuesNorm.isEmpty && !allDone && !allReady then
        some (("in-progress").toList)
      else some (("backlog").toList)

/-- The configuration and durable state `build_operations` reads. -/
structure SyncEnv where
  state : StateFiles
  createOnly : Bool
  updateOnly : Bool
  mapperCfg : MapperConfig
  sprintStatus : List (LC × LC)
  team : Option LC
  project : Option LC
deriving DecidableEq

/-- The body of the story loop of `SyncEngine.build_operations`
(sync_engine.py:115-160) for one entry of the current index. -/
def storyOp (env : SyncEnv) (prevStories : List (LC × StoryMeta))
    (kv : LC × StoryMeta) : Option SyncOperation :=
  match
    (match lookupStory prevStories kv.1 with
     | none => some (("added").toList)
     | some pm =>
       if pm.hash ≠ kv.2.hash then some (("modified").toList) else none) with
  | none => none
  | some reason =>
    if env.createOnly ∧ optTruthy (get_issue_id env.state kv.1) = true then none
    else if env.updateOnly ∧ optTruthy (get_issue_id env.state kv.1) = false then
      none
    else
      some
        { action := determine_action kv.1 reason
          contentKey := kv.1
          contentType := ("story").toList
          reason := reason
          title := kv.2.title
          previousHash := (lookupStory prevStories kv.1).bind StoryMeta.hash
          currentHash := kv.2.hash
          issueId := get_issue_id env.state kv.1
          state := bmad_to_linear_state env.mapperCfg kv.2.status (("story").toList)
          project := env.project
          team := env.team
          labels :=
            if pyLower (pyStrip (kv.2.status.getD [])) = ("ready-for-dev").toList then
              some [(("Contexted").toList)]
            else if pyLower (pyStrip (kv.2.status.getD [])) = ("drafted").toList then
              some [(("No Context").toList)]
            else none }

/-- Python `dict.get` on the epics map. -/
def lookupEpic (epics : List (LC × EpicMeta)) (k : LC) : Option EpicMeta :=
  (epics.find? (fun kv => kv.1 == k)).map Prod.snd

/-- The body of the epic loop of `SyncEngine.build_operations`
(sync_engine.py:177-219) for one entry of the current index. -/
def epicOp (env : SyncEnv) (prevEpics : List (LC × EpicMeta))
    (kv : LC × EpicMeta) : Option SyncOperation :=
  match
    (match lookupEpic prevEpics kv.1 with
     | none => some (("added").toList)
     | some pm =>
       if pm.hash ≠ kv.2.hash then some (("modified").toList) else none) with
  | none => none
  | some reason =>
    if env.createOnly ∧ optTruthy (get_issue_id env.state kv.1) = true then none
    else if env.updateOnly ∧ optTruthy (get_issue_id env.state kv.1) = false then
      none
    else
      some
        { action := determine_action kv.1 reason
          contentKey := kv.1
          contentType := ("epic").toList
          reason := reason
          title := kv.2.title
          previousHash := (lookupEpic prevEpics kv.1).bind EpicMeta.hash
          currentHash := kv.2.hash
          issueId := get_issue_id env.state kv.1
          state :=
            match aggregate_epic_state env.sprintStatus kv.1 with
            | some s =>
              if s ≠ [] then
                bmad_to_linear_state env.mapperCfg (some s) (("epic").toList)
              else none
            | none => none
          project := env.project
          team := env.team
          labels :=
            if pyLower (pyStrip ((lookupLC env.sprintStatus kv.1).getD [])) =
                ("contexted").toList then
              some [(("Contexted").toList)]
            else some [(("No Context").toList)] }

/-- `SyncEngine.build_operations` (sync_engine.py:101-221): the story
operations in index order followed by the epic operations. -/
def build_operations (env : SyncEnv) (previous : Option ContentIndex)
    (newIndex : ContentIndex) : List SyncOperation :=
  let prevStories := match previous with | some p => p.stories | none => []
  let prevEpics := match previous with | some p => p.epics | none => []
  newIndex.stories.filterMap (storyOp env prevStories) ++
    newIndex.epics.filterMap (epicOp env prevEpics)

theorem determine_action_create_iff (key reason : LC) :
    determine_action key reason = ("create").toList ↔ reason = ("added").toList := by
  unfold determine_action
  by_cases h : reason = ("added").toList
  · simp [h]
  · rw [if_neg h]
    constructor
    · intro hc
      exact absurd hc (by decide)
    · intro hr
      exact absurd hr h

theorem storyOp_action_iff {env : SyncEnv} {ps : List (LC × StoryMeta)}
    {kv : LC × StoryMeta} {op : SyncOperation} (h : storyOp env ps kv = some op) :
    op.action = ("create").toList ↔ op.reason = ("added").toList := by
  unfold storyOp at h
  split at h
  · exact absurd h (by simp)
  · split at h
    · exact absurd h (by simp)
    · split at h
      · exact absurd h (by simp)
      · rw [Option.some.injEq] at h
        subst h
        exact determine_action_create_iff kv.1 _

theorem epicOp_action_iff {env : SyncEnv} {pe : List (LC × EpicMeta)}
    {kv : LC × EpicMeta} {op : SyncOperation} (h : epicOp env pe kv = some op) :
    op.action = ("create").toList ↔ op.reason = ("added").toList := by
  unfold epicOp at h
  split at h
  · exact absurd h (by simp)
  · split at h
    · exact absurd h (by simp)
    · split at h
      · exact absurd h (by simp)
      · rw [Option.some.injEq] at h
        subst h
        exact determine_action_create_iff kv.1 _

/-- C1 (amended): every operation planned by `SyncEngine.build_operations`
(story or epic) has action `create` exactly when its change reason is
`added` (no previous index entry), and `update` exactly when the entry was
`modified` — independent of whether a tracker issue id is registered for the
key. -/
theorem c1_action_from_reason (env : SyncEnv) (previous : Option ContentIndex)
    (newIndex : ContentIndex) (op : SyncOperation)
    (hop : op ∈ build_operations env previous newIndex) :
    op.action = ("create").toList ↔ op.reason = ("added").toList := by
  unfold build_operations at hop
  rcases List.mem_append.mp hop with hmem | hmem
  · obtain ⟨kv, _, heq⟩ := List.mem_filterMap.mp hmem
    exact storyOp_action_iff heq
  · obtain ⟨kv, _, heq⟩ := List.mem_filterMap.mp hmem
    exact epicOp_action_iff heq

/-- The report written by `SyncEngine.write_report` (sync_engine.py:708-731). -/
structure SyncReport where
  timestamp : LC
  total : Nat
  createCount : Nat
  updateCount : Nat
  operations : List SyncOperation
deriving DecidableEq

/-- Everything `SyncEngine.sync` reads and writes: the planning inputs, the
persisted `content_index.json` as parsed (`none` when missing or unparsable,
modelling the exception fallback), the index discovery builds from the
current files, and the report file written by `write_report`. -/
structure SyncEngineEnv where
  env : SyncEnv
  contentIndexFile : Option ContentIndex
  discovered : ContentIndex
  reportFile : Option SyncReport
  now : LC
deriving DecidableEq

/-- The plan dictionary returned by `SyncEngine.sync`
(sync_engine.py:955-984). -/
structure SyncPlan where
  operations : List SyncOperation
  total : Nat
  createCount : Nat
  updateCount : Nat
  previousIndex : Option ContentIndex
  currentIndex : ContentIndex
deriving DecidableEq

/-- `SyncEngine.sync` (sync_engine.py:955-984): load the previous index
(unless `force_refresh`), discover the current one, plan the operations,
write the report, and return the plan.  The only state it writes is the
report file: the refreshed index is not persisted. -/
def SyncEngine.sync (e : SyncEngineEnv) (forceRefresh : Bool) :
    SyncPlan × SyncEngineEnv :=
  let previous := if forceRefresh then none else e.contentIndexFile
  let discovery := discover_all e.discovered previous
  let ops := build_operations e.env previous discovery.1
  let report : SyncReport :=
    { timestamp := e.now
      total := ops.length
      createCount := (ops.filter fun o => o.action == ("create").toList).length
      updateCount := (ops.filter fun o => o.action == ("update").toList).length
      operations := ops }
  ({ operations := ops
     total := ops.length
     createCount := (ops.filter fun o => o.action == ("create").toList).length
     updateCount := (ops.filter fun o => o.action == ("update").toList).length
     previousIndex := previous
     currentIndex := discovery.1 },
   { e with reportFile := some report })

/-- C3 (amended): with no content or remote changes between the runs, the
second `SyncEngine.sync` run returns exactly the plan of the first run:
`sync` persists no refreshed content index (only the report file), so the
second run replans against the same previous index.  In particular the
second summary is `{create: 0, update: 0}` only when the first already
was. -/
theorem c3_second_sync_same_plan (e : SyncEngineEnv) :
    (SyncEngine.sync (SyncEngine.sync e false).2 false).1 =
      (SyncEngine.sync e false).1 := rfl

/-- A mapper configuration for the sync-planning scenarios: empty tables,
non-strict. -/
def mapperCfgSync : MapperConfig where
  storyStates := ⟨[], []⟩
  epicStates := ⟨[], []⟩
  strictMode := false
  todoLogic := []

/-- State files as initialised by `StateManager._initialize_files`: empty
maps, no recorded sync. -/
def emptyStateFiles : StateFiles where
  contentIndex := some ⟨[], [], []⟩
  syncState := ⟨none, [], []⟩
  numberRegistry := ⟨[], [], []⟩
  hierarchy := ⟨[], [], [], []⟩

/-- Planning environment with no registered tracker ids and no flags. -/
def envSyncW : SyncEnv where
  state := emptyStateFiles
  createOnly := false
  updateOnly := false
  mapperCfg := mapperCfgSync
  sprintStatus := []
  team := none
  project := none

/-- A discovered index with one story not present in the persisted (empty)
content index. -/
def idxSyncW : ContentIndex where
  lastScan := []
  epics := []
  stories := [((("1-1-s").toList),
    { file := some (("stories/1-1-s.md").toList)
      hash := some (("h2").toList)
      epic := some 1
      story := some 1
      title := some (("S").toList)
      status := some (("drafted").toList) })]

/-- The engine environment of the C3 scenario: the persisted index is the
freshly initialised empty one, discovery finds one story, and nothing
changes between runs. -/
def engEnvC3 : SyncEngineEnv where
  env := envSyncW
  contentIndexFile := some ⟨[], [], []⟩
  discovered := idxSyncW
  reportFile := none
  now := []

/-- C3 counterexample: running `sync` twice in succession on `engEnvC3`
(no content or remote changes in between) still plans one `create` on the
second run, because `sync` never replaced the persisted content index. -/
theorem c3_idempotence_counterexample :
    ¬ ((SyncEngine.sync (SyncEngine.sync engEnvC3 false).2 false).1.createCount = 0 ∧
       (SyncEngine.sync (SyncEngine.sync engEnvC3 false).2 false).1.updateCount = 0) := by
  decide

/-- Planning environment of the C1 scenario: freshly initialised state
files (so no tracker issue id is registered for any key), no flags. -/
def envC1 : SyncEnv where
  state := emptyStateFiles
  createOnly := false
  updateOnly := false
  mapperCfg := mapperCfgSync
  sprintStatus := []
  team := none
  project := none

/-- Previous content index of the C1 scenario: the story already existed
with hash `h1`. -/
def prevIdxC1 : ContentIndex where
  lastScan := []
  epics := []
  stories := [((("1-1-s").toList),
    { file := some (("stories/1-1-s.md").toList)
      hash := some (("h1").toList)
      epic := some 1
      story := some 1
      title := some (("S").toList)
      status := some (("drafted").toList) })]

/-- Current content index of the C1 scenario: the same story with a new
hash, so it is classified `modified`. -/
def curIdxC1 : ContentIndex where
  lastScan := []
  epics := []
  stories := [((("1-1-s").toList),
    { file := some (("stories/1-1-s.md").toList)
      hash := some (("h2").toList)
      epic := some 1
      story := some 1
      title := some (("S").toList)
      status := some (("drafted").toList) })]

/-- The single operation `build_operations` plans in the C1 scenario: an
`update` for the modified story even though no tracker issue id is
registered for its key. -/
def opC1 : SyncOperation where
  action := ("update").toList
  contentKey := ("1-1-s").toList
  contentType := ("story").toList
  reason := ("modified").toList
  title := some (("S").toList)
  previousHash := some (("h1").toList)
  currentHash := some (("h2").toList)
  issueId := none
  state := some (("Backlog").toList)
  project := none
  team := none
  labels := some [(("No Context").toList)]

/-- C1 counterexample: in `envC1` the story `1-1-s` was modified and has no
registered tracker issue id (`get_issue_id` returns `none`), yet the
planned operation's action is `update`, not `create`: the action depends
only on the change reason, never on the registered id. -/
theorem c1_create_iff_no_id_counterexample :
    ¬ (∀ op ∈ build_operations envC1 (some prevIdxC1) curIdxC1,
        (op.action = ("create").toList ↔
          get_issue_id envC1.state op.contentKey = none)) := by
  decide

/-- Witness for `c1_action_from_reason` at the C1 scenario: the planned
operation `opC1` has action `update` and reason `modified`, and the
equivalence holds for it. -/
theorem c1_action_from_reason_witness :
    opC1 ∈ build_operations envC1 (some prevIdxC1) curIdxC1 ∧
      (opC1.action = ("create").toList ↔ opC1.reason = ("added").toList) :=
  ⟨by decide, c1_action_from_reason envC1 (some prevIdxC1) curIdxC1 opC1 (by decide)⟩

/- ------------------------------------------------------------------ -/
/- Applying operations (SyncEngine.apply, sync_engine.py:733-898).     -/
/- ------------------------------------------------------------------ -/

/-- Python `a or b` on two optional strings: the first operand when truthy,
the second otherwise. -/
def pyOrOpt (a b : Option LC) : Option LC :=
  if optTruthy a then a else b

/-- Python `a or b` where the fallback is a plain string. -/
def pyOrStr (a : Option LC) (b : LC) : LC :=
  match a with
  | some v => if v ≠ [] then v else b
  | none => b

/-- Python `str.isdigit` for the ASCII keys this code handles. -/
def pyIsDigit (s : LC) : Bool :=
  !s.isEmpty && s.all Char.isDigit

/-- Python `int(s)` on a string that passed `isdigit`. -/
def pyParseNat (s : LC) : Nat :=
  s.foldl (fun a c => a * 10 + (c.toNat - 48)) 0

/-- Python `s.split(c, maxsplit)`: the piece before the first separator,
recursing on the remainder while splits remain. -/
def pySplitFirst (c : Char) : LC → Option (LC × LC)
  | [] => none
  | x :: rest =>
    if x = c then some ([], rest)
    else (pySplitFirst c rest).map fun p => (x :: p.1, p.2)

/-- Python `s.split(c, maxsplit)` (see `pySplitFirst`). -/
def pySplitMax (c : Char) : Nat → LC → List LC
  | 0, s => [s]
  | m + 1, s =>
    match pySplitFirst c s with
    | none => [s]
    | some p => p.1 :: pySplitMax c m p.2

/-- Python dict assignment `m[k] = v` on a string-keyed mapping: update the
existing entry in place, else append. -/
def upsertLC (m : List (LC × LC)) (k v : LC) : List (LC × LC) :=
  if (lookupLC m k).isSome then
    m.map fun kv => if kv.1 = k then (kv.1, v) else kv
  else m ++ [(k, v)]

/-- `HierarchyManager.register_epic` (hierarchy.py:92-111): record the
mapping and make sure the epic has a (possibly empty) children list. -/
def hierRegisterEpic (h : HierarchyFile) (epicKey linearId : LC) :
    HierarchyFile :=
  { h with
    epicsMap := upsertLC h.epicsMap epicKey linearId
    children :=
      if (h.children.find? fun kv => kv.1 == epicKey).isSome then h.children
      else h.children ++ [(epicKey, [])] }

/-- `HierarchyManager.register_story` (hierarchy.py:113-150): record the
mapping; with a parent epic key (always non-empty when passed) also set the
parent relationship and add the story to the parent's children once. -/
def hierRegisterStory (h : HierarchyFile) (storyKey linearId : LC)
    (parentEpicKey : Option LC) : HierarchyFile :=
  match parentEpicKey with
  | none => { h with storiesMap := upsertLC h.storiesMap storyKey linearId }
  | some p =>
    let ch0 :=
      if (h.children.find? fun kv => kv.1 == p).isSome then h.children
      else h.children ++ [(p, [])]
    { h with
      storiesMap := upsertLC h.storiesMap storyKey linearId
      relationships := upsertLC h.relationships storyKey p
      children :=
        ch0.map fun kv =>
          if kv.1 = p then
            (kv.1, if storyKey ∈ kv.2 then kv.2 else kv.2 ++ [storyKey])
          else kv }

/-- `StateManager.register_issue` (state_manager.py:339-389): first persist
the mapping in `hierarchy.json` (for a story, inferring the parent epic from
a numeric key head), then — for non-epic keys only — record the story's
`linear_issue_key` in `number_registry.json`. -/
def register_issue (st : StateFiles) (storyKey issueId : LC) : StateFiles :=
  let h :=
    if (("epic-").toList).isPrefixOf storyKey then
      hierRegisterEpic st.hierarchy storyKey issueId
    else
      let parts := pySplitMax '-' 2 storyKey
      let parent : Option LC :=
        if 2 ≤ parts.length ∧ pyIsDigit (parts.getD 0 []) = true then
          some ((("epic-").toList) ++ (Nat.repr (pyParseNat (parts.getD 0 []))).toList)
        else none
      hierRegisterStory st.hierarchy storyKey issueId parent
  if (("epic-").toList).isPrefixOf storyKey then { st with hierarchy := h }
  else
    { st with
      hierarchy := h
      numberRegistry :=
        { st.numberRegistry with
          stories := upsertLC st.numberRegistry.stories storyKey issueId } }

/-- `RenumberEngine.record_mapping` (renumber_engine.py:209-252): skipped
for a falsy issue id; otherwise register the new key once more and append
the renumbering-history entry to `number_registry.json`. -/
def record_mapping (st : StateFiles) (rec : RenumberRecord) : StateFiles :=
  if rec.issueId = [] then st
  else
    let st1 := register_issue st rec.newKey rec.issueId
    { st1 with
      numberRegistry :=
        { st1.numberRegistry with
          renumberingHistory := st1.numberRegistry.renumberingHistory ++ [rec] } }

/-- `self.config.get('linear.team_prefix') or 'RAE'` (sync_engine.py:425). -/
def teamPrefOf (cfgTp : Option LC) : LC :=
  pyOrStr cfgTp (("RAE").toList)

/-- The result JSON of `wrapper.issue_create` as the apply loop reads it:
`issueKey`, `issueIdentifier` and `issueId` are the nested
`result["issue"]` fields, `none` when absent. -/
structure CreateResultJson where
  key : Option LC
  identifier : Option LC
  issueKey : Option LC
  issueIdentifier : Option LC
  id : Option LC
  uuid : Option LC
  issueId : Option LC
deriving DecidableEq

/-- Environment of one `SyncEngine.apply` run.  `projectId` is the result
of `ensure_project_id`; `createOutcome` and `updateOutcome` are oracles
giving the outcome of the n-th `issue_create` / `issue_update` call of the
external `linctl` wrapper (`.error` models a raised `LinctlError`);
`configTeamPref` is `config.get('linear.team_prefix')`; `now` is the
timestamp `datetime.now().isoformat()` yields during the run.  The BMAD
docs directory is tracked by file name only: its file contents are content
files, not the persistent state files the rollback concerns. -/
structure ApplyEnv where
  dryRun : Bool
  projectId : Option LC
  mapperCfg : MapperConfig
  configTeamPref : Option LC
  createOutcome : Nat → Except LC CreateResultJson
  updateOutcome : Nat → Except LC Unit
  now : LC

/-- The allowed-states table the apply loop selects
(sync_engine.py:786-788): `story_states` for stories, `epic_states` for
every other content type. -/
def applyStates (cfg : MapperConfig) (contentType : LC) : StateTable :=
  if contentType = ("story").toList then cfg.storyStates else cfg.epicStates

/-- `SyncEngine._renumber_after_create` (sync_engine.py:404-533): when the
old BMAD file exists, rename it, register the new key, and — when the
numeric-id parses succeed (`int(...)` would raise otherwise, and the
whole body swallows exceptions, keeping the effects so far) — record the
renumbering mapping.  File-content edits (`_add_linear_id_to_file`,
`update_cross_references`, `sprint-status.yaml`) touch only docs contents,
which are tracked by name. -/
def renumber_after_create (env : ApplyEnv) (docs : List LC) (st : StateFiles)
    (op : SyncOperation) (linearId : LC) : List LC × StateFiles :=
  let tp := teamPrefOf env.configTeamPref
  let numericId := pyReplace (tp ++ ['-']) [] linearId
  if op.contentType = ("epic").toList then
    let oldKey := op.contentKey
    let newKey := (("epic-").toList) ++ numericId
    let oldFile := oldKey ++ (("-context.md").toList)
    let newFile := newKey ++ (("-context.md").toList)
    if oldFile ∈ docs then
      let docs2 :=
        (docs.filter fun f => decide (f ≠ oldFile) && decide (f ≠ newFile)) ++ [newFile]
      let st2 := register_issue st newKey linearId
      if pyIsDigit (pyReplace (("epic-").toList) [] oldKey) && pyIsDigit numericId then
        (docs2, record_mapping st2
          { oldKey := oldKey, newKey := newKey, issueId := linearId,
            timestamp := env.now, reason := ("structural_change").toList })
      else (docs2, st2)
    else (docs, st)
  else if op.contentType = ("story").toList then
    let parts := pySplitMax '-' 2 op.contentKey
    if parts.length < 2 then (docs, st)
    else
      let oldEpic := parts.getD 0 []
      let oldStory := parts.getD 1 []
      let storyName := if 2 < parts.length then parts.getD 2 [] else []
      let epicNumeric :=
        match get_issue_id st ((("epic-").toList) ++ oldEpic) with
        | some v => if v ≠ [] then pyReplace (tp ++ ['-']) [] v else oldEpic
        | none => oldEpic
      let newKey := epicNumeric ++ ['-'] ++ numericId ++
        (if storyName ≠ [] then '-' :: storyName else [])
      let oldFile := (("stories/").toList) ++ op.contentKey ++ ((".md").toList)
      let newFile := (("stories/").toList) ++ newKey ++ ((".md").toList)
      if oldFile ∈ docs then
        let docs2 :=
          (docs.filter fun f => decide (f ≠ oldFile) && decide (f ≠ newFile)) ++ [newFile]
        let st2 := register_issue st newKey linearId
        if pyIsDigit oldEpic && pyIsDigit oldStory && pyIsDigit epicNumeric &&
            pyIsDigit numericId then
          (docs2, record_mapping st2
            { oldKey := op.contentKey, newKey := newKey, issueId := linearId,
              timestamp := env.now, reason := ("structural_change").toList })
        else (docs2, st2)
      else (docs, st)
  else (docs, st)

/-- The running state of the apply loop: the docs file names, the state
files, both counters of the returned pair, and how many create / update
wrapper calls were made so far (the oracle indices). -/
structure ApplyState where
  docs : List LC
  st : StateFiles
  success : Nat
  failed : Nat
  createCalls : Nat
  updateCalls : Nat

/-- One iteration of the apply loop (sync_engine.py:760-886): create with
payload validation, issue registration, post-create state update and
renumbering; update with payload validation and registration; everything
else only logs a message.  A raised error counts the operation failed and
keeps the effects made before the raise. -/
def applyOp (env : ApplyEnv) (a : ApplyState) (op : SyncOperation) : ApplyState :=
  if op.action = ("create").toList then
    let titleStr :=
      if op.contentType = ("epic").toList then
        Char.ofNat 0x1F4E6 :: ((" EPIC: ").toList) ++ pyOrStr op.title op.contentKey
      else if op.contentType = ("story").toList then
        Char.ofNat 0x1F4CB :: ((" STORY: ").toList) ++ pyOrStr op.title op.contentKey
      else pyOrStr op.title op.contentKey
    if pyStrip titleStr = [] ∨ pyStrip (pyOrStr op.team []) = [] then
      { a with failed := a.failed + 1 }
    else
      match env.createOutcome a.createCalls with
      | .error _ =>
        { a with createCalls := a.createCalls + 1, failed := a.failed + 1 }
      | .ok r =>
        let a1 := { a with createCalls := a.createCalls + 1 }
        let issueKey :=
          pyOrOpt r.key (pyOrOpt r.identifier (pyOrOpt r.issueKey r.issueIdentifier))
        let issueUuid := pyOrOpt r.id (pyOrOpt r.uuid r.issueId)
        match pyOrOpt issueKey issueUuid with
        | none => { a1 with success := a1.success + 1 }
        | some iid =>
          if iid = [] then { a1 with success := a1.success + 1 }
          else
            let st1 := register_issue a1.st op.contentKey iid
            if (op.contentType = ("story").toList ∨ op.contentType = ("epic").toList) ∧
                optTruthy op.state = true then
              if op.state.getD [] ∈
                  (applyStates env.mapperCfg op.contentType).bmadToLinear.map Prod.snd then
                let ok1 := optTruthy issueKey &&
                  (match env.updateOutcome a1.updateCalls with
                   | .ok _ => true
                   | .error _ => false)
                let uc1 :=
                  if optTruthy issueKey then a1.updateCalls + 1 else a1.updateCalls
                let uc2 := if !ok1 && optTruthy issueUuid then uc1 + 1 else uc1
                let rn := renumber_after_create env a1.docs st1 op iid
                { a1 with
                  docs := rn.1, st := rn.2, success := a1.success + 1,
                  updateCalls := uc2 }
              else { a1 with st := st1, failed := a1.failed + 1 }
            else
              let rn := renumber_after_create env a1.docs st1 op iid
              { a1 with docs := rn.1, st := rn.2, success := a1.success + 1 }
  else if op.action = ("update").toList ∧ optTruthy op.issueId = true then
    if optTruthy op.state = true ∧
        op.state.getD [] ∉
          (applyStates env.mapperCfg op.contentType).bmadToLinear.map Prod.snd then
      { a with failed := a.failed + 1 }
    else
      match env.updateOutcome a.updateCalls with
      | .error _ => { a with updateCalls := a.updateCalls + 1, failed := a.failed + 1 }
      | .ok _ =>
        { a with
          updateCalls := a.updateCalls + 1
          st := register_issue a.st op.contentKey (op.issueId.getD [])
          success := a.success + 1 }
  else a

/-- The rollback epilogue of `apply` (sync_engine.py:888-896): with at
least one failure, copy the backups of `content_index.json`,
`sync_state.json` and `number_registry.json` back over the state files (the
three files exist from `StateManager._initialize_files`, so their backups
exist); `hierarchy.json` has no backup and is left as the loop wrote it. -/
def applyFinish (st0 : StateFiles) (fin : ApplyState) :
    Nat × Nat × StateFiles × List LC :=
  if fin.failed > 0 then
    (fin.success, fin.failed,
     { fin.st with
       contentIndex := st0.contentIndex
       syncState := st0.syncState
       numberRegistry := st0.numberRegistry },
     fin.docs)
  else (fin.success, fin.failed, fin.st, fin.docs)

/-- `SyncEngine.apply` (sync_engine.py:733-898) over the state files and
the docs file names: dry runs and a missing project id change nothing;
otherwise back up the three state files, run the loop, and restore the
backups when any operation failed.  The returned messages list is
informational only and not modelled; the result is
`(success, failed, state files, docs)`. -/
def SyncEngine.apply (env : ApplyEnv) (docs : List LC) (st : StateFiles)
    (ops : List SyncOperation) : Nat × Nat × StateFiles × List LC :=
  if env.dryRun then (0, 0, st, docs)
  else if optTruthy env.projectId = false then (0, 0, st, docs)
  else applyFinish st (ops.foldl (applyOp env) ⟨docs, st, 0, 0, 0, 0⟩)

/-- C2 (amended): after a non-trivial `apply` run that reports at least one
failed operation, the three snapshotted state files — `content_index.json`,
`sync_state.json` and `number_registry.json` — are byte-identical to the
pre-apply snapshot; `hierarchy.json` (written by `register_issue` during
the run) is not covered by the snapshot and may keep mid-run writes. -/
theorem c2_snapshot_rollback (env : ApplyEnv) (docs : List LC)
    (st : StateFiles) (ops : List SyncOperation)
    (hf : 1 ≤ (SyncEngine.apply env docs st ops).2.1) :
    (SyncEngine.apply env docs st ops).2.2.1.contentIndex = st.contentIndex ∧
    (SyncEngine.apply env docs st ops).2.2.1.syncState = st.syncState ∧
    (SyncEngine.apply env docs st ops).2.2.1.numberRegistry = st.numberRegistry := by
  unfold SyncEngine.apply at hf ⊢
  by_cases hd : env.dryRun
  · rw [if_pos hd]
    exact ⟨rfl, rfl, rfl⟩
  · rw [if_neg hd] at hf ⊢
    by_cases hp : optTruthy env.projectId = false
    · rw [if_pos hp]
      exact ⟨rfl, rfl, rfl⟩
    · rw [if_neg hp] at hf ⊢
      unfold applyFinish at hf ⊢
      by_cases hff : (ops.foldl (applyOp env) ⟨docs, st, 0, 0, 0, 0⟩).failed > 0
      · rw [if_pos hff]
        exact ⟨rfl, rfl, rfl⟩
      · rw [if_neg hff] at hf
        exact absurd hf (by simpa using Nat.not_lt.mpr (Nat.le_of_not_lt hff))

/-- Apply environment of the C2 scenario: a live (non-dry) run with a
project id, where the first `issue_create` call succeeds with issue key
`RAE-361` and the second raises a `LinctlError`. -/
def envC2 : ApplyEnv where
  dryRun := false
  projectId := some (("proj").toList)
  mapperCfg := mapperCfgSync
  configTeamPref := none
  createOutcome := fun n =>
    if n = 0 then
      .ok { key := some (("RAE-361").toList), identifier := none,
            issueKey := none, issueIdentifier := none,
            id := none, uuid := none, issueId := none }
    else .error (("rate limit exceeded").toList)
  updateOutcome := fun _ => .error (("unused").toList)
  now := ("2025-01-01T00:00:00").toList

/-- The two planned create operations of the C2 scenario: the first
succeeds and registers its issue, the second fails. -/
def opsC2 : List SyncOperation :=
  [{ action := ("create").toList
     contentKey := ("1-1-s").toList
     contentType := ("story").toList
     reason := ("added").toList
     title := some (("S").toList)
     previousHash := none
     currentHash := some (("h1").toList)
     issueId := none
     state := none
     project := none
     team := some (("T").toList)
     labels := none },
   { action := ("create").toList
     contentKey := ("1-2-t").toList
     contentType := ("story").toList
     reason := ("added").toList
     title := some (("T2").toList)
     previousHash := none
     currentHash := some (("h2").toList)
     issueId := none
     state := none
     project := none
     team := some (("T").toList)
     labels := none }]

/-- C2 counterexample: the `apply` run of the C2 scenario reports one
failed operation, yet `hierarchy.json` — written when the first (successful)
create registered issue `RAE-361` — differs from its pre-apply contents:
the rollback restores only the three snapshotted files, so not every
persistent state file is byte-identical to the snapshot. -/
theorem c2_rollback_counterexample :
    (SyncEngine.apply envC2 [] emptyStateFiles opsC2).2.1 = 1 ∧
      (SyncEngine.apply envC2 [] emptyStateFiles opsC2).2.2.1.hierarchy ≠
        emptyStateFiles.hierarchy := by
  decide

/-- Witness for `c2_snapshot_rollback` at the C2 scenario: the run has one
failure, and the three snapshotted files come back byte-identical. -/
theorem c2_snapshot_rollback_witness :
    1 ≤ (SyncEngine.apply envC2 [] emptyStateFiles opsC2).2.1 ∧
      ((SyncEngine.apply envC2 [] emptyStateFiles opsC2).2.2.1.contentIndex =
          emptyStateFiles.contentIndex ∧
        (SyncEngine.apply envC2 [] emptyStateFiles opsC2).2.2.1.syncState =
          emptyStateFiles.syncState ∧
        (SyncEngine.apply envC2 [] emptyStateFiles opsC2).2.2.1.numberRegistry =
          emptyStateFiles.numberRegistry) :=
  ⟨by decide, c2_snapshot_rollback envC2 [] emptyStateFiles opsC2 (by decide)⟩
